import Mathlib

/-!
Verification of the tally-fastapi replication engine against its specification.

Strings from the Python source are modelled as `List Char`.  Each definition
mirrors one Python function of the repository; the file name of the source
function is given in its doc comment.
-/

namespace TallySync

/-- Python `str.strip` whitespace set (the characters Python treats as
whitespace for `strip()`), restricted to those that can occur in Gateway
responses. -/
def pySpace (c : Char) : Bool :=
  c = ' ' || c = '\t' || c = '\n' || c = '\r' || c = '\x0b' || c = '\x0c'

/-- Python `s.strip()`: drop leading and trailing whitespace. -/
def pyStrip (s : List Char) : List Char :=
  ((s.dropWhile pySpace).reverse.dropWhile pySpace).reverse

/-- Python `s.isdigit()` for ASCII content: non-empty and all decimal digits. -/
def strIsDigit (s : List Char) : Bool :=
  !s.isEmpty && s.all Char.isDigit

/-- Decimal value of a digit string (the value `int(s)` returns when
`s.isdigit()` holds). -/
def natOfDigits (s : List Char) : Nat :=
  s.foldl (fun a c => 10 * a + (c.toNat - ('0').toNat)) 0

/-- Python `int(s)` as a partial function: optional sign, then digits,
surrounding whitespace allowed; `none` models the `ValueError`. -/
def pyInt? (s : List Char) : Option Int :=
  match pyStrip s with
  | '-' :: ds => if strIsDigit ds then some (-(natOfDigits ds : Int)) else none
  | '+' :: ds => if strIsDigit ds then some (natOfDigits ds : Int) else none
  | ds => if strIsDigit ds then some (natOfDigits ds : Int) else none

/-- Fuel-indexed worker for `replaceAll`.  Each recursive step consumes at
least one character of the string, so fuel equal to the string length is
always sufficient; on (unreachable) fuel exhaustion the rest of the string
is returned unchanged. -/
def replaceAllFuel (pat rep : List Char) : Nat → List Char → List Char
  | _, [] => []
  | 0, s => s
  | fuel + 1, c :: rest =>
    if pat ≠ [] ∧ pat.isPrefixOf (c :: rest) then
      rep ++ replaceAllFuel pat rep fuel ((c :: rest).drop pat.length)
    else
      c :: replaceAllFuel pat rep fuel rest

/-- Python `s.replace(pat, rep)`: replace non-overlapping occurrences of
`pat` left to right.  (For empty `pat` Python interleaves `rep`; the source
never calls it that way, and this model keeps the string unchanged then.) -/
def replaceAll (pat rep : List Char) (s : List Char) : List Char :=
  replaceAllFuel pat rep s.length s

/-- Python `s.split(sep)` for a single-character separator. -/
def splitOnChar (sep : Char) : List Char → List (List Char)
  | [] => [[]]
  | c :: t =>
    if c = sep then [] :: splitOnChar sep t
    else
      match splitOnChar sep t with
      | [] => [[c]]
      | h :: r => (c :: h) :: r

/-- Python `s.zfill(k)` for an unsigned string: left-pad with zeros to
width `k`. -/
def zfill (k : Nat) (s : List Char) : List Char :=
  List.replicate (k - s.length) '0' ++ s

/-- Does `pat` occur as a contiguous substring of `s`? -/
def hasSubstr (pat : List Char) : List Char → Bool
  | [] => pat.isPrefixOf []
  | c :: t => pat.isPrefixOf (c :: t) || hasSubstr pat t

/-- The Gateway null sentinel, the single code point U+00F1. -/
def nullSentinel : List Char := ['ñ']

/-- The month-name map of `parse_tally_date`
(`src/app/utils/helpers.py`, lines 28-32). -/
def monthMap : List (List Char × List Char) :=
  [("jan".toList, "01".toList), ("feb".toList, "02".toList),
   ("mar".toList, "03".toList), ("apr".toList, "04".toList),
   ("may".toList, "05".toList), ("jun".toList, "06".toList),
   ("jul".toList, "07".toList), ("aug".toList, "08".toList),
   ("sep".toList, "09".toList), ("oct".toList, "10".toList),
   ("nov".toList, "11".toList), ("dec".toList, "12".toList)]

/-- First-match association-list lookup (Python `dict` access on the literal
`month_map`). -/
def assocLookup {α : Type} [DecidableEq (List Char)] (d : List (List Char × α))
    (k : List Char) : Option α :=
  match d with
  | [] => none
  | (k0, v0) :: rest => if k0 = k then some v0 else assocLookup rest k

/-- The separator clean-up of `parse_tally_date`
(`helpers.py` line 26): `.replace('--','-').replace('- ','-').replace(' -','-')`. -/
def dateCleanup (s : List Char) : List Char :=
  replaceAll (' ' :: ['-']) ['-']
    (replaceAll ('-' :: [' ']) ['-']
      (replaceAll ('-' :: ['-']) ['-'] s))

/-- `parse_tally_date` (`src/app/utils/helpers.py`, lines 12-50).
Returns `none` for the Python `None`.  The trailing `return date_str`
(line 48) and the bare `except: return None` (line 49-50, reachable only via
`int(year)` on a 2-character non-numeric year) are modelled faithfully. -/
def parse_tally_date (s : List Char) : Option (List Char) :=
  if s = [] ∨ s = nullSentinel then none
  else
    let t := pyStrip s
    if t.length = 8 ∧ strIsDigit t then
      some (t.take 4 ++ '-' :: ((t.drop 4).take 2 ++ '-' :: (t.drop 6).take 2))
    else
      let u := dateCleanup t
      let parts := splitOnChar '-' u
      if parts.length ≥ 3 then
        let day := zfill 2 (parts.headD [])
        let monthStr := (((parts.drop 1).dropLast).flatten.map Char.toLower).take 3
        let year := parts.getLastD []
        match assocLookup monthMap monthStr with
        | some m =>
          if year.length = 2 then
            match pyInt? year with
            | some yv =>
              some ((if yv < 50 then ('2' :: ['0']) else ('1' :: ['9'])) ++ year
                    ++ '-' :: (m ++ '-' :: day))
            | none => none
          else
            some (year ++ '-' :: (m ++ '-' :: day))
        | none => some u
      else some u

/-- ISO `YYYY-MM-DD` shape, written from the specification's words: ten
characters, four digits, a dash, two digits, a dash, two digits.  Used to
compare the decoder's actual output against the spec's claimed shape. -/
def isIsoDateShape (s : List Char) : Bool :=
  match s with
  | [y1, y2, y3, y4, h1, m1, m2, h2, d1, d2] =>
    y1.isDigit && y2.isDigit && y3.isDigit && y4.isDigit && h1 = '-' &&
    m1.isDigit && m2.isDigit && h2 = '-' && d1.isDigit && d2.isDigit
  | _ => false

theorem dropWhile_eq_self_of {p : Char → Bool} {s : List Char}
    (h : ∀ c ∈ s, p c = false) : s.dropWhile p = s := by
  cases s with
  | nil => rfl
  | cons c t =>
    have hc : p c = false := h c (List.mem_cons_self c t)
    simp [List.dropWhile, hc]

theorem pyStrip_eq_self {s : List Char}
    (h : ∀ c ∈ s, pySpace c = false) : pyStrip s = s := by
  unfold pyStrip
  rw [dropWhile_eq_self_of h]
  rw [dropWhile_eq_self_of (fun c hc => h c (List.mem_reverse.mp hc))]
  exact List.reverse_reverse s

theorem hasSubstr_mem {pat s : List Char} (h : hasSubstr pat s = true) :
    ∀ c ∈ pat, c ∈ s := by
  induction s with
  | nil =>
    intro c hc
    simp [hasSubstr] at h
    rw [h] at hc
    exact absurd hc (List.not_mem_nil c)
  | cons a t ih =>
    intro c hc
    simp only [hasSubstr, Bool.or_eq_true] at h
    rcases h with h | h
    · exact (List.IsPrefix.subset (List.isPrefixOf_iff_prefix.mp h)) hc
    · exact List.mem_cons_of_mem a (ih h c hc)

theorem replaceAllFuel_eq_self {pat rep : List Char} (fuel : Nat)
    {s : List Char} (h : hasSubstr pat s = false) :
    replaceAllFuel pat rep fuel s = s := by
  induction fuel generalizing s with
  | zero => cases s <;> rfl
  | succ n ih =>
    cases s with
    | nil => rfl
    | cons c t =>
      simp only [hasSubstr, Bool.or_eq_false_iff] at h
      rw [replaceAllFuel, if_neg, ih h.2]
      intro hcontra
      rw [hcontra.2] at h
      exact absurd h.1 (by simp)

theorem replaceAll_eq_self {pat rep s : List Char}
    (h : hasSubstr pat s = false) : replaceAll pat rep s = s :=
  replaceAllFuel_eq_self s.length h

/-- If `pat` occurs nowhere, `hasSubstr` over a cons reduces to the prefix
test at the head. -/
theorem hasSubstr_cons (pat : List Char) (c : Char) (t : List Char) :
    hasSubstr pat (c :: t) = (pat.isPrefixOf (c :: t) || hasSubstr pat t) := rfl

/-- No occurrence of `"--"` in `a ++ '-' :: t` when `a` is dash-free, `t`
has no `"--"` and `t` does not begin with a dash. -/
theorem hasSubstr_dd_append {a t : List Char} (ha : '-' ∉ a)
    (ht : hasSubstr ('-' :: ['-']) t = false)
    (hh : ∀ x, t.head? = some x → x ≠ '-') :
    hasSubstr ('-' :: ['-']) (a ++ '-' :: t) = false := by
  induction a with
  | nil =>
    simp only [List.nil_append, hasSubstr_cons, Bool.or_eq_false_iff]
    refine ⟨?_, ht⟩
    cases t with
    | nil => rfl
    | cons x t2 =>
      have hx : (('-' : Char) == x) = false :=
        beq_eq_false_iff_ne.mpr (Ne.symm (hh x rfl))
      simp [List.isPrefixOf, hx]
  | cons c a2 ih =>
    have hc : (('-' : Char) == c) = false :=
      beq_eq_false_iff_ne.mpr
        (Ne.symm (fun hcc => ha (hcc ▸ List.mem_cons_self c a2)))
    have ha2 : '-' ∉ a2 := fun hm => ha (List.mem_cons_of_mem c hm)
    simp only [List.cons_append, hasSubstr_cons, Bool.or_eq_false_iff]
    refine ⟨?_, ih ha2⟩
    simp [List.isPrefixOf, hc]

theorem splitOnChar_not_mem {sep : Char} {s : List Char} (h : sep ∉ s) :
    splitOnChar sep s = [s] := by
  induction s with
  | nil => rfl
  | cons c t ih =>
    have hc : c ≠ sep := fun hcc => h (hcc ▸ List.mem_cons_self c t)
    have ht : sep ∉ t := fun hm => h (List.mem_cons_of_mem c hm)
    rw [splitOnChar, if_neg (by exact fun hcc => hc hcc), ih ht]

theorem splitOnChar_append {sep : Char} {a t : List Char} (ha : sep ∉ a) :
    splitOnChar sep (a ++ sep :: t) = a :: splitOnChar sep t := by
  induction a with
  | nil =>
    simp only [List.nil_append]
    rw [splitOnChar, if_pos rfl]
  | cons c a2 ih =>
    have hc : c ≠ sep := fun hcc => ha (hcc ▸ List.mem_cons_self c a2)
    have ha2 : sep ∉ a2 := fun hm => ha (List.mem_cons_of_mem c hm)
    simp only [List.cons_append]
    rw [splitOnChar, if_neg (by exact fun hcc => hc hcc), ih ha2]

theorem strIsDigit_false_of_mem {s : List Char} {c : Char}
    (hc : c ∈ s) (hd : c.isDigit = false) : strIsDigit s = false := by
  unfold strIsDigit
  rcases h : s.all Char.isDigit with _ | _
  · simp
  · exact absurd (List.all_eq_true.mp h c hc) (by simp [hd])

theorem pySpace_eq_false_of_isDigit {c : Char} (h : c.isDigit = true) :
    pySpace c = false := by
  simp only [pySpace, Bool.or_eq_false_iff, decide_eq_false_iff_not]
  refine ⟨⟨⟨⟨⟨?_, ?_⟩, ?_⟩, ?_⟩, ?_⟩, ?_⟩ <;> (rintro rfl; revert h; decide)

theorem strIsDigit_ne_nil {s : List Char} (h : strIsDigit s = true) :
    s ≠ [] := by
  intro hs
  rw [hs] at h
  exact absurd h (by decide)

theorem isDigit_of_strIsDigit {s : List Char} (h : strIsDigit s = true) :
    ∀ c ∈ s, c.isDigit = true := by
  unfold strIsDigit at h
  exact List.all_eq_true.mp (Bool.and_elim_right h)

theorem pyStrip_of_digits {s : List Char} (h : strIsDigit s = true) :
    pyStrip s = s :=
  pyStrip_eq_self fun c hc =>
    pySpace_eq_false_of_isDigit (isDigit_of_strIsDigit h c hc)

theorem pyInt_of_digits {s : List Char} (h : strIsDigit s = true) :
    pyInt? s = some (natOfDigits s : Int) := by
  have hstrip := pyStrip_of_digits h
  have hall := isDigit_of_strIsDigit h
  rw [pyInt?, hstrip]
  split
  · next ds =>
    exact absurd (hall '-' (List.mem_cons_self '-' ds)) (by decide)
  · next ds =>
    exact absurd (hall '+' (List.mem_cons_self '+' ds)) (by decide)
  · rw [if_pos h]

/-- The 8-digit branch of `parse_tally_date` always produces the ISO
`YYYY-MM-DD` shape. -/
theorem iso_of_digits8 {t : List Char} (hl : t.length = 8)
    (hd : t.all Char.isDigit = true) :
    isIsoDateShape
      (t.take 4 ++ '-' :: ((t.drop 4).take 2 ++ '-' :: (t.drop 6).take 2)) =
      true := by
  rcases t with _ | ⟨c1, _ | ⟨c2, _ | ⟨c3, _ | ⟨c4, _ | ⟨c5, _ | ⟨c6, _ |
    ⟨c7, _ | ⟨c8, _ | ⟨c9, r⟩⟩⟩⟩⟩⟩⟩⟩⟩ <;>
    simp_all [isIsoDateShape, List.all_cons]

/-- `TallyService.get_last_alter_ids` (`src/app/services/tally_service.py`,
lines 386-447), response handling only.  The argument is the Gateway
response; `none` stands for a transport failure or any exception raised by
`send_xml` (the `except` path).  The XML request payload plays no part in
the parsing and is omitted. -/
def get_last_alter_ids (resp : Option (List Char)) : Int × Int :=
  match resp with
  | none => (0, 0)
  | some r =>
    let response := replaceAll ['"'] [] (pyStrip r)
    if response ≠ [] then
      match splitOnChar ',' response with
      | p0 :: p1 :: _ =>
        ((if strIsDigit p0 then (natOfDigits p0 : Int) else 0),
         (if strIsDigit p1 then (natOfDigits p1 : Int) else 0))
      | _ => (0, 0)
    else (0, 0)

/-- The month-branch key of `parse_tally_date`: `''.join(parts[1:-1]).lower()[:3]`. -/
def monthKey (parts : List (List Char)) : List Char :=
  (((parts.drop 1).dropLast).flatten.map Char.toLower).take 3

theorem parse_date_branch8 {s : List Char} (h1 : s ≠ []) (h2 : s ≠ nullSentinel)
    (h8 : (pyStrip s).length = 8) (hd : strIsDigit (pyStrip s) = true) :
    parse_tally_date s =
      some ((pyStrip s).take 4 ++ '-' ::
        (((pyStrip s).drop 4).take 2 ++ '-' :: ((pyStrip s).drop 6).take 2)) := by
  have hcond1 : ¬(s = [] ∨ s = nullSentinel) := by
    rintro (rfl | rfl)
    · exact h1 rfl
    · exact h2 rfl
  simp only [parse_tally_date]
  rw [if_neg hcond1, if_pos ⟨h8, hd⟩]

theorem parse_date_echo {s : List Char} (h1 : s ≠ []) (h2 : s ≠ nullSentinel)
    (h8 : ¬((pyStrip s).length = 8 ∧ strIsDigit (pyStrip s) = true))
    (hrec : (splitOnChar '-' (dateCleanup (pyStrip s))).length < 3 ∨
      assocLookup monthMap
        (monthKey (splitOnChar '-' (dateCleanup (pyStrip s)))) = none) :
    parse_tally_date s = some (dateCleanup (pyStrip s)) := by
  have hcond1 : ¬(s = [] ∨ s = nullSentinel) := by
    rintro (rfl | rfl)
    · exact h1 rfl
    · exact h2 rfl
  simp only [parse_tally_date, monthKey] at hrec ⊢
  rw [if_neg hcond1, if_neg h8]
  by_cases hlen : (splitOnChar '-' (dateCleanup (pyStrip s))).length ≥ 3
  · rw [if_pos hlen]
    rcases hrec with hrec | hrec
    · exact absurd hlen (not_le.mpr hrec)
    · rw [hrec]
  · rw [if_neg hlen]

/-- C6: the claim states that `parse_tally_date` returns null or an ISO
`YYYY-MM-DD` string, and null — never the raw input echoed back — for an
unrecognisable shape.  Counterexample: on input `hello`, which is neither
the `YYYYMMDD` shape nor a `d-MMM-yy` shape, the function returns the raw
input `hello` itself (line 48 of `helpers.py`, `return date_str`), which is
not null and not ISO-shaped. -/
theorem C6_counterexample :
    parse_tally_date ("hello".toList) = some ("hello".toList) ∧
    isIsoDateShape ("hello".toList) = false := by decide

/-- C6 (amended): `parse_tally_date` returns null or a string.  An input
whose stripped form is the 8-digit `YYYYMMDD` shape yields an ISO
`YYYY-MM-DD` string; but an input that is neither the `YYYYMMDD` shape nor
dash-splits (after separator clean-up) into at least three parts with a
recognisable month is echoed back in stripped, separator-normalised form —
not mapped to null.  (Null arises only for empty input, the `ñ` sentinel,
or a two-character non-numeric year.) -/
theorem C6_amended :
    (∀ s : List Char, s ≠ [] → s ≠ nullSentinel →
      (pyStrip s).length = 8 → strIsDigit (pyStrip s) = true →
      ∃ t, parse_tally_date s = some t ∧ isIsoDateShape t = true) ∧
    (∀ s : List Char, s ≠ [] → s ≠ nullSentinel →
      ¬((pyStrip s).length = 8 ∧ strIsDigit (pyStrip s) = true) →
      ((splitOnChar '-' (dateCleanup (pyStrip s))).length < 3 ∨
        assocLookup monthMap
          (monthKey (splitOnChar '-' (dateCleanup (pyStrip s)))) = none) →
      parse_tally_date s = some (dateCleanup (pyStrip s))) := by
  constructor
  · intro s h1 h2 h8 hd
    exact ⟨_, parse_date_branch8 h1 h2 h8 hd,
      iso_of_digits8 h8 (Bool.and_elim_right hd)⟩
  · intro s h1 h2 h8 hrec
    exact parse_date_echo h1 h2 h8 hrec

/-- Witness for C6 (amended): both conjuncts applied at concrete inputs —
`20210401` decodes to the ISO string `2021-04-01`, and the unrecognisable
input `hello` is echoed back. -/
theorem C6_amended_witness :
    (∃ t, parse_tally_date ("20210401".toList) = some t ∧
      isIsoDateShape t = true) ∧
    parse_tally_date ("hello".toList) =
      some (dateCleanup (pyStrip ("hello".toList))) :=
  ⟨C6_amended.1 ("20210401".toList) (by decide) (by decide) (by decide)
    (by decide),
   C6_amended.2 ("hello".toList) (by decide) (by decide) (by decide)
    (by decide)⟩

/-- C10: for every `d-MMM-yy` input — day and month parts free of dashes
and whitespace, month resolvable in the month map, two-digit numeric
year — `parse_tally_date` resolves the century with the fixed pivot 50:
`20YY` when `YY < 50`, `19YY` when `YY ≥ 50`, and the day is zero-padded
to two digits. -/
theorem C10_century_pivot
    (d m mm : List Char) (y1 y2 : Char)
    (hd_ne : d ≠ []) (hm_ne : m ≠ [])
    (hd_dash : '-' ∉ d) (hm_dash : '-' ∉ m)
    (hd_sp : ∀ c ∈ d, pySpace c = false) (hm_sp : ∀ c ∈ m, pySpace c = false)
    (hy1 : y1.isDigit = true) (hy2 : y2.isDigit = true)
    (hd_len : d.length ≤ 2)
    (hmm : assocLookup monthMap ((m.map Char.toLower).take 3) = some mm) :
    parse_tally_date (d ++ '-' :: (m ++ '-' :: (y1 :: [y2]))) =
      some ((if (natOfDigits (y1 :: [y2]) : Int) < 50
              then ('2' :: ['0']) else ('1' :: ['9'])) ++ (y1 :: [y2])
            ++ '-' :: (mm ++ '-' :: zfill 2 (d))) ∧
    (zfill 2 (d)).length = 2 := by
  set y : List Char := y1 :: [y2] with hy_def
  set s : List Char := d ++ '-' :: (m ++ '-' :: y) with hs_def
  have hy_dash : '-' ∉ y := by
    intro hmem
    rw [hy_def] at hmem
    rcases List.mem_cons.mp hmem with h | h
    · rw [← h] at hy1
      exact absurd hy1 (by decide)
    · rcases List.mem_singleton.mp h with rfl
      exact absurd hy2 (by decide)
  have hs_ne : s ≠ [] := by
    rw [hs_def]
    cases d with
    | nil => exact absurd rfl hd_ne
    | cons a t => simp
  have hs_sent : s ≠ nullSentinel := by
    intro hcontra
    have := congrArg List.length hcontra
    rw [hs_def] at this
    simp [nullSentinel, hy_def] at this
    omega
  have hall_sp : ∀ c ∈ s, pySpace c = false := by
    intro c hc
    rw [hs_def] at hc
    rcases List.mem_append.mp hc with h | h
    · exact hd_sp c h
    · rcases List.mem_cons.mp h with rfl | h
      · decide
      · rcases List.mem_append.mp h with h | h
        · exact hm_sp c h
        · rcases List.mem_cons.mp h with rfl | h
          · decide
          · rw [hy_def] at h
            rcases List.mem_cons.mp h with rfl | h
            · exact pySpace_eq_false_of_isDigit hy1
            · rcases List.mem_singleton.mp h with rfl
              exact pySpace_eq_false_of_isDigit hy2
  have hstrip : pyStrip s = s := pyStrip_eq_self hall_sp
  have hdash_mem : '-' ∈ s := by
    rw [hs_def]
    exact List.mem_append_right d (List.mem_cons_self '-' _)
  have hdig_false : strIsDigit s = false :=
    strIsDigit_false_of_mem hdash_mem (by decide)
  have h8 : ¬((pyStrip s).length = 8 ∧ strIsDigit (pyStrip s) = true) := by
    rintro ⟨-, hcontra⟩
    rw [hstrip, hdig_false] at hcontra
    exact absurd hcontra (by decide)
  have hsp_mem : ' ' ∉ s := by
    intro hmem
    have := hall_sp ' ' hmem
    exact absurd this (by decide)
  have hdd_y : hasSubstr ('-' :: ['-']) y = false := by
    cases hts : hasSubstr ('-' :: ['-']) y with
    | false => rfl
    | true =>
      exact absurd (hasSubstr_mem hts '-' (List.mem_cons_self '-' _)) hy_dash
  have hdd_my : hasSubstr ('-' :: ['-']) (m ++ '-' :: y) = false := by
    refine hasSubstr_dd_append hm_dash hdd_y ?_
    intro x hx hx_dash
    rw [hy_def] at hx
    simp only [List.head?] at hx
    have hy1x : y1 = '-' := (Option.some.inj hx).trans hx_dash
    rw [hy1x] at hy1
    exact absurd hy1 (by decide)
  have hdd_s : hasSubstr ('-' :: ['-']) s = false := by
    rw [hs_def]
    refine hasSubstr_dd_append hd_dash hdd_my ?_
    intro x hx hx_dash
    cases m with
    | nil => exact absurd rfl hm_ne
    | cons a t =>
      simp only [List.cons_append, List.head?] at hx
      have hax : a = '-' := (Option.some.inj hx).trans hx_dash
      exact hm_dash (hax ▸ List.mem_cons_self a t)
  have hds : hasSubstr ('-' :: [' ']) s = false := by
    cases hts : hasSubstr ('-' :: [' ']) s with
    | false => rfl
    | true =>
      exact absurd (hasSubstr_mem hts ' '
        (List.mem_cons_of_mem '-' (List.mem_singleton.mpr rfl))) hsp_mem
  have hsd : hasSubstr (' ' :: ['-']) s = false := by
    cases hts : hasSubstr (' ' :: ['-']) s with
    | false => rfl
    | true =>
      exact absurd (hasSubstr_mem hts ' ' (List.mem_cons_self ' ' _)) hsp_mem
  have hclean : dateCleanup s = s := by
    unfold dateCleanup
    rw [replaceAll_eq_self hdd_s, replaceAll_eq_self hds,
      replaceAll_eq_self hsd]
  have hsplit : splitOnChar '-' s = [d, m, y] := by
    rw [hs_def, splitOnChar_append hd_dash, splitOnChar_append hm_dash,
      splitOnChar_not_mem hy_dash]
  have hydig : strIsDigit y = true := by
    rw [hy_def]
    simp [strIsDigit, hy1, hy2]
  have hcond1 : ¬(s = [] ∨ s = nullSentinel) := by
    rintro (hcontra | hcontra)
    · exact hs_ne hcontra
    · exact hs_sent hcontra
  have hzfill : (zfill 2 (d)).length = 2 := by
    simp only [zfill, List.length_append, List.length_replicate]
    omega
  refine ⟨?_, hzfill⟩
  rw [parse_tally_date]
  rw [if_neg hcond1]
  rw [hstrip]
  rw [hstrip] at h8
  simp only []
  rw [if_neg h8]
  rw [hclean, hsplit]
  rw [if_pos (by simp)]
  have e1 : ([d, m, y].headD ([] : List Char)) = d := rfl
  have e2 : (([d, m, y].drop 1).dropLast).flatten = m ++ ([] : List Char) := rfl
  have e3 : [d, m, y].getLastD ([] : List Char) = y := rfl
  rw [e1, e2, e3, List.append_nil, hmm]
  simp only []
  rw [if_pos (show y.length = 2 by rw [hy_def]; rfl)]
  rw [pyInt_of_digits hydig]

/-- Witness for C10: the input `7-Apr-62` parses to `1962-04-07` (62 ≥ 50,
century 19, day zero-padded). -/
theorem C10_century_pivot_witness :
    parse_tally_date ("7-Apr-62".toList) = some ("1962-04-07".toList) := by
  have h := (C10_century_pivot (['7']) ("Apr".toList) ("04".toList) '6' '2'
    (by decide) (by decide) (by decide) (by decide)
    (by decide) (by decide) (by decide) (by decide) (by decide)
    (by decide)).1
  rw [show (('7' :: []) ++ '-' :: (("Apr".toList) ++ '-' :: ('6' :: ['2'])))
      = ("7-Apr-62".toList) from rfl] at h
  rw [h]
  decide

/-- C9: `get_last_alter_ids` never raises (it is total into integer pairs);
a transport failure, an empty stripped response, a response with fewer than
two comma-separated parts, or one whose two leading parts are each
non-numeric all yield `(0, 0)`; in general the two leading parts map
independently to their digit value or 0; and the genuine Gateway response
`0,0` yields the same `(0, 0)` as a failed fetch, so callers cannot
distinguish the two. -/
theorem C9_alter_ids_degenerate :
    get_last_alter_ids none = (0, 0) ∧
    (∀ r : List Char, replaceAll ['"'] [] (pyStrip r) = [] →
      get_last_alter_ids (some r) = (0, 0)) ∧
    (∀ r : List Char,
      (splitOnChar ',' (replaceAll ['"'] [] (pyStrip r))).length < 2 →
      get_last_alter_ids (some r) = (0, 0)) ∧
    (∀ (r p0 p1 : List Char) (rest : List (List Char)),
      splitOnChar ',' (replaceAll ['"'] [] (pyStrip r)) = p0 :: p1 :: rest →
      get_last_alter_ids (some r) =
        ((if strIsDigit p0 = true then (natOfDigits p0 : Int) else 0),
         (if strIsDigit p1 = true then (natOfDigits p1 : Int) else 0))) ∧
    get_last_alter_ids (some ('0' :: (',' :: ['0']))) = (0, 0) := by
  have hgen : ∀ (r p0 p1 : List Char) (rest : List (List Char)),
      splitOnChar ',' (replaceAll ['"'] [] (pyStrip r)) = p0 :: p1 :: rest →
      get_last_alter_ids (some r) =
        ((if strIsDigit p0 = true then (natOfDigits p0 : Int) else 0),
         (if strIsDigit p1 = true then (natOfDigits p1 : Int) else 0)) := by
    intro r p0 p1 rest hsplit
    have hne : replaceAll ['"'] [] (pyStrip r) ≠ [] := by
      intro h0
      rw [h0] at hsplit
      simp [splitOnChar] at hsplit
    rw [get_last_alter_ids]
    rw [if_pos hne, hsplit]
  refine ⟨rfl, ?_, ?_, hgen, ?_⟩
  · intro r hempty
    rw [get_last_alter_ids]
    rw [if_neg (by rw [hempty]; exact fun h => h rfl)]
  · intro r hlen
    by_cases hempty : replaceAll ['"'] [] (pyStrip r) = []
    · rw [get_last_alter_ids]
      rw [if_neg (by rw [hempty]; exact fun h => h rfl)]
    · rcases hsplit : splitOnChar ',' (replaceAll ['"'] [] (pyStrip r)) with
        _ | ⟨p0, _ | ⟨p1, rest⟩⟩
      · rw [get_last_alter_ids]
        rw [if_pos hempty, hsplit]
      · rw [get_last_alter_ids]
        rw [if_pos hempty, hsplit]
      · rw [hsplit] at hlen
        simp only [List.length_cons] at hlen
        exact absurd hlen (by omega)
  · rfl

/-- Witness for C9: applied at the transport-failure input, at the
whitespace-only response, at the two-non-numeric-parts response
`ab,cd`, and at the digit response `123,456`. -/
theorem C9_alter_ids_degenerate_witness :
    get_last_alter_ids (some ("   ".toList)) = (0, 0) ∧
    get_last_alter_ids (some ("ab,cd".toList)) = (0, 0) ∧
    get_last_alter_ids (some ("123,456".toList)) = (123, 456) := by
  refine ⟨C9_alter_ids_degenerate.2.1 ("   ".toList) (by decide), ?_, ?_⟩
  · have h := C9_alter_ids_degenerate.2.2.2.1 ("ab,cd".toList)
      ("ab".toList) ("cd".toList) [] (by decide)
    rw [h]
    decide
  · have h := C9_alter_ids_degenerate.2.2.2.1 ("123,456".toList)
      ("123".toList) ("456".toList) [] (by decide)
    rw [h]
    decide

/-! ## Circuit breaker (`src/app/services/retry_service.py`) -/

/-- `CircuitState` (`retry_service.py`, lines 16-20). -/
inductive CircuitState
  | closed
  | opened
  | halfOpen
deriving DecidableEq, Repr

/-- `CircuitBreaker` state (`retry_service.py`, lines 23-40).  Timestamps
are modelled as natural numbers (seconds); `last_failure_time` is `none`
until a failure is recorded, as in the source. -/
structure CircuitBreaker where
  failure_threshold : Nat
  recovery_timeout : Nat
  half_open_max_calls : Nat
  state : CircuitState
  failure_count : Nat
  success_count : Nat
  last_failure_time : Option Nat
  half_open_calls : Nat
deriving DecidableEq, Repr

/-- `CircuitBreaker.__init__` defaults (`retry_service.py`, lines 26-40). -/
def CircuitBreaker.init (failure_threshold recovery_timeout
    half_open_max_calls : Nat) : CircuitBreaker :=
  { failure_threshold := failure_threshold
    recovery_timeout := recovery_timeout
    half_open_max_calls := half_open_max_calls
    state := CircuitState.closed
    failure_count := 0
    success_count := 0
    last_failure_time := none
    half_open_calls := 0 }

/-- `CircuitBreaker.can_execute` (`retry_service.py`, lines 42-61).
Returns the boolean answer and the possibly transitioned breaker (the
OPEN → HALF_OPEN transition mutates state in the source).  `now` is the
current clock value (`datetime.now()`). -/
def can_execute (now : Nat) (cb : CircuitBreaker) : Bool × CircuitBreaker :=
  if cb.state = CircuitState.closed then (true, cb)
  else if cb.state = CircuitState.opened then
    match cb.last_failure_time with
    | some t =>
      if cb.recovery_timeout ≤ now - t then
        (true, { cb with state := CircuitState.halfOpen, half_open_calls := 0 })
      else (false, cb)
    | none => (false, cb)
  else if cb.state = CircuitState.halfOpen then
    (cb.half_open_calls < cb.half_open_max_calls, cb)
  else (false, cb)

/-- `CircuitBreaker.record_success` (`retry_service.py`, lines 63-73). -/
def record_success (cb : CircuitBreaker) : CircuitBreaker :=
  if cb.state = CircuitState.halfOpen then
    let sc := cb.success_count + 1
    if cb.half_open_max_calls ≤ sc then
      { cb with state := CircuitState.closed, failure_count := 0,
                success_count := 0 }
    else { cb with success_count := sc }
  else { cb with failure_count := 0 }

/-- `CircuitBreaker.record_failure` (`retry_service.py`, lines 75-85). -/
def record_failure (now : Nat) (cb : CircuitBreaker) : CircuitBreaker :=
  let cb := { cb with failure_count := cb.failure_count + 1,
                      last_failure_time := some now }
  if cb.state = CircuitState.halfOpen then
    { cb with state := CircuitState.opened }
  else if cb.failure_threshold ≤ cb.failure_count then
    { cb with state := CircuitState.opened }
  else cb

/-- `n` consecutive `can_execute` calls with no result recorded in between:
returns the list of answers and the final breaker. -/
def can_execute_times (now : Nat) : Nat → CircuitBreaker →
    List Bool × CircuitBreaker
  | 0, cb => ([], cb)
  | n + 1, cb =>
    let (b, cb1) := can_execute now cb
    let (bs, cb2) := can_execute_times now n cb1
    (b :: bs, cb2)

/-- C8: the claim states that while a breaker stays in HalfOpen without a
state transition, `can_execute` answers true at most `half_open_max_calls`
times.  The code never increments `half_open_calls`, so the bound never
binds: a breaker that has just entered HalfOpen (K = 3, `half_open_calls`
= 0) answers true on four — indeed any number of — consecutive
`can_execute` calls, and remains in HalfOpen unchanged.  The dead
`half_open_calls` counter (reset at the OPEN → HALF_OPEN transition, line
53, compared at line 59, incremented nowhere) shows the intended counting
that the code fails to perform. -/
theorem C8_half_open_unbounded :
    can_execute_times 100 4
        { CircuitBreaker.init 5 60 3 with
            state := CircuitState.halfOpen, last_failure_time := some 0 } =
      ([true, true, true, true],
        { CircuitBreaker.init 5 60 3 with
            state := CircuitState.halfOpen, last_failure_time := some 0 }) := by
  decide

/-! ## Audit recorder (`src/app/services/audit_service.py`) -/

/-- Python values occurring in row snapshots.  `vNone` is Python `None`.
Snapshot values are only ever compared for (in)equality by the audit code,
so a value universe with decidable equality represents them; floats are
carried as their string form. -/
inductive PyVal
  | vNone
  | vStr (s : List Char)
  | vInt (n : Int)
deriving DecidableEq, Repr

/-- A Python dict snapshot: association list with the dict's (unique) keys
in iteration order. -/
abbrev PyDict := List (List Char × PyVal)

/-- Python `d.get(key)` with default `None`. -/
def pyDictGet (d : PyDict) (k : List Char) : PyVal :=
  match d with
  | [] => PyVal.vNone
  | (k0, v0) :: rest => if k0 = k then v0 else pyDictGet rest k

/-- The `changed_fields` computation of `AuditService.log_update`
(`audit_service.py`, lines 95-100): the keys of `new_data` whose value
differs from `old_data.get(key)`. -/
def changed_fields_of (old new : PyDict) : List (List Char) :=
  new.filterMap fun kv =>
    if pyDictGet old kv.1 ≠ kv.2 then some kv.1 else none

/-- One row of the `audit_log` table as `_log_action` inserts it
(`audit_service.py`, lines 145-179).  `old_data`, `new_data` and
`changed_fields` are `None` when the Python value is falsy (`None`, empty
dict, or empty list — the `x if x else None` idiom of lines 172-174). -/
structure AuditRow where
  action : List Char
  table_name : List Char
  record_guid : List Char
  record_name : List Char
  old_data : Option PyDict
  new_data : Option PyDict
  changed_fields : Option (List (List Char))
  company : List Char
deriving DecidableEq, Repr

/-- `AuditService._log_action` (`audit_service.py`, lines 145-182): appends
one row to `audit_log`, serialising falsy snapshots and falsy
`changed_fields` as `None`.  Write errors are swallowed in the source;
the model keeps the success path. -/
def log_action (log : List AuditRow) (action table guid name : List Char)
    (old new : Option PyDict) (changed : Option (List (List Char)))
    (company : List Char) : List AuditRow :=
  log ++ [{ action := action
            table_name := table
            record_guid := guid
            record_name := name
            old_data := match old with
              | some o => if o = [] then none else some o
              | none => none
            new_data := match new with
              | some n => if n = [] then none else some n
              | none => none
            changed_fields := match changed with
              | some c => if c = [] then none else some c
              | none => none
            company := company }]

/-- `AuditService.log_update` (`audit_service.py`, lines 84-112): computes
`changed_fields` and unconditionally calls `_log_action` with
`action="UPDATE"`. -/
def log_update (log : List AuditRow) (table guid name : List Char)
    (old new : PyDict) (company : List Char) : List AuditRow :=
  log_action log ("UPDATE".toList) table guid name (some old) (some new)
    (some (changed_fields_of old new)) company

/-- Keys of a dict are pairwise distinct (guaranteed for Python dicts). -/
def nodupKeys (d : PyDict) : Prop := (d.map Prod.fst).Nodup

theorem pyDictGet_of_mem {d : PyDict} (hnd : nodupKeys d)
    {kv : List Char × PyVal} (hmem : kv ∈ d) :
    pyDictGet d kv.1 = kv.2 := by
  induction d with
  | nil => exact absurd hmem (List.not_mem_nil kv)
  | cons p rest ih =>
    rcases List.mem_cons.mp hmem with rfl | hmem2
    · simp [pyDictGet]
    · have hne : p.1 ≠ kv.1 := by
        intro hcontra
        have : kv.1 ∈ rest.map Prod.fst := List.mem_map_of_mem Prod.fst hmem2
        rw [← hcontra] at this
        exact (List.nodup_cons.mp hnd).1 this
      rw [pyDictGet, if_neg hne]
      exact ih (List.nodup_cons.mp hnd).2 hmem2

theorem mem_changed_fields {old new : PyDict} (hnd : nodupKeys new)
    {k : List Char} (hk : k ∈ changed_fields_of old new) :
    pyDictGet old k ≠ pyDictGet new k := by
  unfold changed_fields_of at hk
  rcases List.mem_filterMap.mp hk with ⟨kv, hmem, hcond⟩
  by_cases hne : pyDictGet old kv.1 ≠ kv.2
  · rw [if_pos hne] at hcond
    have hkk : kv.1 = k := Option.some.inj hcond
    rw [← hkk, pyDictGet_of_mem hnd hmem]
    exact hne
  · rw [if_neg hne] at hcond
    exact absurd hcond (by simp)

/-- C5: the claim states that a `log_update` call in which no key of
`new_data` differs from `old_data` records no UPDATE audit event.
Counterexample: with identical before- and after-snapshots `{a: 1}`, the
source's `log_update` still calls `_log_action` (lines 102-112 run
unconditionally) and one UPDATE row is recorded — with `changed_fields`
serialised as null, because the empty list is falsy at line 174. -/
theorem C5_counterexample :
    log_update [] ("mst_ledger".toList) ("g1".toList) ("n1".toList)
        [(("a".toList), PyVal.vInt 1)] [(("a".toList), PyVal.vInt 1)]
        ("ACME".toList) =
      [{ action := ("UPDATE".toList)
         table_name := ("mst_ledger".toList)
         record_guid := ("g1".toList)
         record_name := ("n1".toList)
         old_data := some [(("a".toList), PyVal.vInt 1)]
         new_data := some [(("a".toList), PyVal.vInt 1)]
         changed_fields := none
         company := ("ACME".toList) }] := by
  decide

/-- C5 (amended): every `log_update` call records exactly one UPDATE audit
event — also when nothing changed, in which case `changed_fields` is
stored as null; otherwise `changed_fields` is the list of exactly the keys
of `new_data` whose value differs from `old_data`, and every listed
column's before-value differs from its after-value. -/
theorem C5_amended :
    ∀ (log : List AuditRow) (table guid name : List Char)
      (old new : PyDict) (company : List Char), nodupKeys new →
      (log_update log table guid name old new company).length =
        log.length + 1 ∧
      ∃ row, log_update log table guid name old new company = log ++ [row] ∧
        row.action = ("UPDATE".toList) ∧
        row.changed_fields =
          (if changed_fields_of old new = [] then none
           else some (changed_fields_of old new)) ∧
        (∀ k ∈ changed_fields_of old new,
          pyDictGet old k ≠ pyDictGet new k) := by
  intro log table guid name old new company hnd
  constructor
  · simp [log_update, log_action]
  · exact ⟨_, rfl, rfl, rfl, fun k hk => mem_changed_fields hnd hk⟩

/-- Witness for C5 (amended): one changed key `a` (1 → 2) yields one UPDATE
row whose `changed_fields` is exactly `[a]`. -/
theorem C5_amended_witness :
    (log_update [] ("t".toList) ("g".toList) ("n".toList)
        [(("a".toList), PyVal.vInt 1)] [(("a".toList), PyVal.vInt 2)]
        ("ACME".toList)).length = 1 ∧
    ∃ row, log_update [] ("t".toList) ("g".toList) ("n".toList)
        [(("a".toList), PyVal.vInt 1)] [(("a".toList), PyVal.vInt 2)]
        ("ACME".toList) = [] ++ [row] ∧
      row.action = ("UPDATE".toList) ∧
      row.changed_fields =
        (if changed_fields_of [(("a".toList), PyVal.vInt 1)]
              [(("a".toList), PyVal.vInt 2)] = [] then none
         else some (changed_fields_of [(("a".toList), PyVal.vInt 1)]
              [(("a".toList), PyVal.vInt 2)])) ∧
      (∀ k ∈ changed_fields_of [(("a".toList), PyVal.vInt 1)]
          [(("a".toList), PyVal.vInt 2)],
        pyDictGet [(("a".toList), PyVal.vInt 1)] k ≠
          pyDictGet [(("a".toList), PyVal.vInt 2)] k) :=
  C5_amended [] ("t".toList) ("g".toList) ("n".toList)
    [(("a".toList), PyVal.vInt 1)] [(("a".toList), PyVal.vInt 2)]
    ("ACME".toList) (by simp [nodupKeys])

/-! ## Response decoder (`SyncService._parse_xml_response`,
`src/app/services/sync_service.py`, lines 755-828)

The decoder locates complete `<F01>…</F01>` matches (Python
`re.finditer` with a lazy group: at each scan position the earliest
opening tag with a closing tag somewhere after it matches, the content
runs to the first closing tag, and scanning resumes after the match),
slices the response at match starts, and extracts the first
`<Fii>…</Fii>` occurrence per field from each slice.  The model covers
the row/field extraction and null-marker stage (lines 760-799 and
822-823), producing each field as `Option (List Char)`; the subsequent
per-kind coercion (lines 801-820) applies `parse_tally_date` (modelled
above) for date fields and numeric/logical coercions pointwise and is
not part of this claim. -/

/-- Index of the first occurrence of `pat` in `s` (Python `re`'s leftmost
match position for a literal). -/
def findSubstr (pat : List Char) : List Char → Option Nat
  | [] => if pat.isPrefixOf ([] : List Char) then some 0 else none
  | c :: t =>
    if pat.isPrefixOf (c :: t) then some 0
    else (findSubstr pat t).map (· + 1)

theorem findSubstr_le {pat s : List Char} {i : Nat}
    (h : findSubstr pat s = some i) : i + pat.length ≤ s.length := by
  induction s generalizing i with
  | nil =>
    rw [findSubstr] at h
    by_cases hp : pat.isPrefixOf ([] : List Char)
    · rw [if_pos hp] at h
      have : pat = [] := List.prefix_nil.mp (List.isPrefixOf_iff_prefix.mp hp)
      simp [this, ← Option.some.inj h]
    · rw [if_neg hp] at h
      exact absurd h (by simp)
  | cons c t ih =>
    rw [findSubstr] at h
    by_cases hp : pat.isPrefixOf (c :: t)
    · rw [if_pos hp] at h
      rw [← Option.some.inj h]
      simpa using (List.isPrefixOf_iff_prefix.mp hp).length_le
    · rw [if_neg hp] at h
      rcases Option.map_eq_some'.mp h with ⟨j, hj, rfl⟩
      have := ih hj
      simp only [List.length_cons]
      omega

/-- Fuel-indexed worker for `f01Matches`.  Each found match consumes at
least eleven characters of the string (the two tags), so fuel equal to the
string length is always sufficient; on (unreachable) fuel exhaustion no
further matches are reported. -/
def f01MatchesFuel : Nat → List Char → List (Nat × Nat)
  | 0, _ => []
  | fuel + 1, s =>
    match findSubstr ("<F01>".toList) s with
    | none => []
    | some i =>
      match findSubstr ("</F01>".toList) (s.drop (i + 5)) with
      | none => []
      | some j =>
        (i, i + 5 + j + 6) ::
          (f01MatchesFuel fuel (s.drop (i + 5 + j + 6))).map
            (fun p => (p.1 + (i + 5 + j + 6), p.2 + (i + 5 + j + 6)))

/-- The non-overlapping complete `<F01>…</F01>` matches of the response,
as `(start, end)` index pairs — the semantics of
`re.compile(r'<F01>(.*?)</F01>', re.DOTALL).finditer(xml_response)`
(line 771-772). -/
def f01Matches (s : List Char) : List (Nat × Nat) :=
  f01MatchesFuel s.length s

/-- First complete `<tag>…</tag>` occurrence in `s` — the semantics of
`re.search(f'<Fii>(.*?)</Fii>', row_xml, re.DOTALL)` (lines 792-793). -/
def firstTagContent (tag s : List Char) : Option (List Char) :=
  match findSubstr ('<' :: (tag ++ ['>'])) s with
  | none => none
  | some i =>
    match findSubstr ('<' :: ('/' :: (tag ++ ['>'])))
        (s.drop (i + ('<' :: (tag ++ ['>'])).length)) with
    | none => none
    | some j => some ((s.drop (i + ('<' :: (tag ++ ['>'])).length)).take j)

/-- The response tag for 1-based field position `n`:
`f"F{str(n).zfill(2)}"` (line 791). -/
def fTag (n : Nat) : List Char := 'F' :: zfill 2 (Nat.toDigits 10 n)

/-- Strip the leading byte-order mark, if present (lines 760-762). -/
def stripBom (s : List Char) : List Char :=
  match s with
  | [] => []
  | c :: t => if c = '\uFEFF' then t else c :: t

/-- The slices the decoder iterates over: from each match start to the
next match start, the last slice extending to the end of the input
(lines 778-786). -/
def slicesFrom (s : List Char) : List (Nat × Nat) → List (List Char)
  | [] => []
  | (st, _) :: rest =>
    ((s.drop st).take
      ((match rest with
        | [] => s.length
        | (st2, _) :: _ => st2) - st)) ::
      slicesFrom s rest

/-- Field `i` (0-based) of a row slice: the first `<Fii>…</Fii>` content,
with an absent tag (`value = ""` at line 795) and the null marker / empty
content (lines 797-799) decoding to null. -/
def rawField (slice : List Char) (i : Nat) : Option (List Char) :=
  match firstTagContent (fTag (i + 1)) slice with
  | none => none
  | some v => if v = nullSentinel ∨ v = [] then none else some v

/-- `SyncService._parse_xml_response` up to the per-kind coercion: one row
per `<F01>…</F01>` match, each row listing fields `1..numFields` as
decoded (pre-coercion) values. -/
def parse_xml_response (s : List Char) (numFields : Nat) :
    List (List (Option (List Char))) :=
  (slicesFrom (stripBom s) (f01Matches (stripBom s))).map fun sl =>
    (List.range numFields).map fun i => rawField sl i

/-- The slice of row `k`, defined independently by indexing the match
list: from the `k`-th match start to the `(k+1)`-th match start, or to
the end of input for the last row. -/
def sliceAt (s : List Char) (k : Nat) : List Char :=
  (s.drop ((f01Matches s).getD k (0, 0)).1).take
    ((if k + 1 < (f01Matches s).length
      then ((f01Matches s).getD (k + 1) (0, 0)).1
      else s.length) - ((f01Matches s).getD k (0, 0)).1)

theorem slicesFrom_length (s : List Char) (ms : List (Nat × Nat)) :
    (slicesFrom s ms).length = ms.length := by
  induction ms with
  | nil => rfl
  | cons p rest ih =>
    cases p with
    | mk st e => simp [slicesFrom, ih]

theorem slicesFrom_getElem (s : List Char) (ms : List (Nat × Nat))
    (k : Nat) (h : k < ms.length) :
    (slicesFrom s ms)[k]? =
      some ((s.drop (ms.getD k (0, 0)).1).take
        ((if k + 1 < ms.length then (ms.getD (k + 1) (0, 0)).1 else s.length)
          - (ms.getD k (0, 0)).1)) := by
  induction ms generalizing k with
  | nil => exact absurd h (by simp)
  | cons p rest ih =>
    cases p with
    | mk st e =>
      cases k with
      | zero =>
        cases rest with
        | nil => simp [slicesFrom]
        | cons q rest2 =>
          cases q with
          | mk st2 e2 =>
            have hlt : 0 + 1 < ((st, e) :: (st2, e2) :: rest2).length := by
              simp
            rw [if_pos hlt]
            simp [slicesFrom]
      | succ k2 =>
        have h2 : k2 < rest.length := by
          simp only [List.length_cons] at h
          omega
        have := ih k2 h2
        have hgd1 : ((st, e) :: rest).getD (k2 + 1) (0, 0) =
            rest.getD k2 (0, 0) := rfl
        have hgd2 : ((st, e) :: rest).getD (k2 + 1 + 1) (0, 0) =
            rest.getD (k2 + 1) (0, 0) := rfl
        calc (slicesFrom s ((st, e) :: rest))[k2 + 1]?
            = (slicesFrom s rest)[k2]? := by
              cases rest with
              | nil => exact absurd h2 (by simp)
              | cons q r2 => simp [slicesFrom]
          _ = _ := by
              rw [this, hgd1, hgd2]
              by_cases hc : k2 + 1 < rest.length
              · rw [if_pos hc, if_pos (by simp only [List.length_cons]; omega)]
              · rw [if_neg hc, if_neg (by simp only [List.length_cons]; omega)]

/-- C7: for every response string and field count NN, the decoder returns
exactly one row per complete `<F01>…</F01>` occurrence; row `k`'s field
`i` (1-based tag `Fii`) is the value extracted from the first
`<Fii>…</Fii>` occurrence inside the slice from the `k`-th match start to
the `(k+1)`-th match start (the last slice extending to end of input,
both as the independently indexed `sliceAt` states); and a tag absent
from its slice decodes as null. -/
theorem C7_decoder_rows :
    ∀ (s : List Char) (numFields : Nat),
      (parse_xml_response s numFields).length =
        (f01Matches (stripBom s)).length ∧
      (∀ (k i : Nat) (row : List (Option (List Char))),
        (parse_xml_response s numFields)[k]? = some row → i < numFields →
        row[i]? = some (rawField (sliceAt (stripBom s) k) i)) ∧
      (∀ (k i : Nat) (row : List (Option (List Char))),
        (parse_xml_response s numFields)[k]? = some row → i < numFields →
        firstTagContent (fTag (i + 1)) (sliceAt (stripBom s) k) = none →
        row[i]? = some none) := by
  intro s numFields
  have hmain : ∀ (k i : Nat) (row : List (Option (List Char))),
      (parse_xml_response s numFields)[k]? = some row → i < numFields →
      row[i]? = some (rawField (sliceAt (stripBom s) k) i) := by
    intro k i row hrow hi
    rw [parse_xml_response, List.getElem?_map] at hrow
    rcases Option.map_eq_some'.mp hrow with ⟨sl, hsl, rfl⟩
    have hk : k < (f01Matches (stripBom s)).length := by
      have : k < (slicesFrom (stripBom s) (f01Matches (stripBom s))).length :=
        List.getElem?_eq_some_iff.mp hsl |>.1
      rwa [slicesFrom_length] at this
    have hslice := slicesFrom_getElem (stripBom s) (f01Matches (stripBom s)) k hk
    rw [hsl] at hslice
    have hsl_eq : sl = sliceAt (stripBom s) k := by
      rw [sliceAt]
      exact Option.some.inj hslice
    rw [List.getElem?_map, List.getElem?_range hi, hsl_eq]
    rfl
  refine ⟨?_, hmain, ?_⟩
  · rw [parse_xml_response, List.length_map, slicesFrom_length]
  · intro k i row hrow hi habsent
    rw [hmain k i row hrow hi, rawField, habsent]

/-- Witness for C7: the concrete response
`<F01>abc</F01><F02>x</F02><F01>ñ</F01>` with two fields decodes to two
rows; in row 1 the `F02` tag is absent from the slice and the theorem's
conclusions evaluate to `[none, none]` at that row. -/
theorem C7_decoder_rows_witness :
    (parse_xml_response ("<F01>abc</F01><F02>x</F02><F01>ñ</F01>".toList)
        2).length = 2 ∧
    (([none, none] : List (Option (List Char))))[1]? =
      some (rawField
        (sliceAt (stripBom ("<F01>abc</F01><F02>x</F02><F01>ñ</F01>".toList))
          1) 1) ∧
    (([none, none] : List (Option (List Char))))[1]? = some none :=
  ⟨by
    rw [(C7_decoder_rows ("<F01>abc</F01><F02>x</F02><F01>ñ</F01>".toList)
      2).1]
    decide,
   (C7_decoder_rows ("<F01>abc</F01><F02>x</F02><F01>ñ</F01>".toList)
      2).2.1 1 1 [none, none] (by decide) (by decide),
   (C7_decoder_rows ("<F01>abc</F01><F02>x</F02><F01>ñ</F01>".toList)
      2).2.2 1 1 [none, none] (by decide) (by decide) (by decide)⟩

/-! ## Sync orchestration (`SyncService`, `src/app/services/sync_service.py`)

The synchronizer is modelled as a pure state-transition function.  A
`GatewayEnv` fixes the responses the Gateway gives during the run (the
table specs loaded from YAML, the rows each report decodes to, the
alter-id report, the company-info report) and which store operations
fail; the store is a `DB` value; the service singleton's mutable fields
are an `Svc` value.  Each sync returns the Python return value
(`get_status()` or the busy `{"error": …}` dict), the final store, the
final service state, and a trace of store effects.  Clock-derived strings
(timestamps) are abstracted as empty strings; rows carry their guid,
alterid, `_company` stamp, a cascade foreign-key value, and an opaque
payload standing for the remaining columns. -/

/-- Observable store effects of a sync run. -/
inductive SyncEffect
  | truncateTable (table company : List Char)
  | insertRows (table : List Char) (count : Nat)
  | deleteRows (table : List Char) (count : Nat)
  | cascadeDeleteRows (table : List Char)
  | upsertRows (table : List Char) (count : Nat)
  | configUpdate (company : List Char) (m t : Int)
  | diffPhase (table : List Char)
  | importPhase (table : List Char)
deriving DecidableEq, Repr

/-- One row of a replicated table. -/
structure Row where
  guid : List Char
  alterid : List Char
  company : List Char
  fk : List Char
  payload : Nat
deriving DecidableEq, Repr

/-- One TableSpec entry of the YAML export config (the fields the sync
flow reads: `name`, `nature`, `cascade_delete` target tables). -/
structure TableCfg where
  name : List Char
  nature : List Char
  cascades : List (List Char)
deriving DecidableEq, Repr

/-- One row of the `company_config` table
(`database_service.py`, lines 727-746). -/
structure CompanyCfgRow where
  company_guid : List Char
  company_alterid : Int
  last_alter_id_master : Int
  last_alter_id_transaction : Int
  last_sync_type : List Char
  sync_count : Int
deriving DecidableEq, Repr

/-- The store: replicated tables, the structured `company_config` table,
the key-value `config` table, and the `sync_history` table (type,
status). -/
structure DB where
  tables : List (List Char × List Row)
  company_config : List (List Char × CompanyCfgRow)
  config_kv : List (List Char × List Char)
  sync_history : List (List Char × List Char)
deriving DecidableEq, Repr

/-- The parsed company-info report
(`TallyService._parse_company_info`, `tally_service.py`, lines 284-321). -/
structure CompanyInfo where
  company_name : List Char
  books_from : List Char
  last_voucher_date : List Char
  guid : List Char
  alterid : Int
deriving DecidableEq, Repr

/-- The environment of one sync run: configuration, Gateway responses,
and store failures.  `table_rows`, `diff_rows` and `import_rows` give the
decoded rows for the full-table report, the synthetic `(guid, alterid)`
diff report, and the alter-id-filtered import report of each table
(`_extract_table_data` swallows every transport and decode error and
returns `[]`, so an empty list also covers those).  `company_info = none`
models a transport failure or the `{"error": …}` dict. -/
structure GatewayEnv where
  master_tables : List TableCfg
  transaction_tables : List TableCfg
  config_company : List Char
  table_rows : List Char → List Row
  diff_rows : List Char → List Row
  import_rows : List Char → List Row
  alter_ids : Int × Int
  company_info : Option CompanyInfo
  connect_fails : Bool
  bulk_insert_fails : List Char → Bool

/-- The `SyncService` singleton's mutable fields
(`sync_service.py`, lines 77-86); timestamps are not modelled. -/
structure Svc where
  status : List Char
  progress : Int
  current_table : List Char
  rows_processed : Nat
  error_message : Option (List Char)
  cancel_requested : Bool
  current_company : List Char
deriving DecidableEq, Repr

/-- A sync entry point's return value: the busy `{"error": …}` dict
(line 118/222) or the `get_status()` report. -/
inductive SyncResult
  | busyError
  | report (status : List Char) (progress : Int) (rows_processed : Nat)
      (error_message : Option (List Char))
deriving DecidableEq, Repr

def statusIdle : List Char := "idle".toList
def statusRunning : List Char := "running".toList
def statusCompleted : List Char := "completed".toList
def statusFailed : List Char := "failed".toList
def statusCancelled : List Char := "cancelled".toList

/-- `SyncService.get_status` (lines 88-99), the fields the model carries. -/
def get_status (svc : Svc) : SyncResult :=
  SyncResult.report svc.status svc.progress svc.rows_processed
    svc.error_message

/-- `SyncService._reset_status` (lines 1030-1039). -/
def reset_status (svc : Svc) : Svc :=
  { svc with status := statusIdle, progress := 0, current_table := [],
             rows_processed := 0, error_message := none,
             cancel_requested := false }

/-- Replace the value of the first occurrence of a key. -/
def assocReplace {α : Type} : List (List Char × α) → List Char → α →
    List (List Char × α)
  | [], _, _ => []
  | (k0, v0) :: rest, k, v =>
    if k0 = k then (k, v) :: rest else (k0, v0) :: assocReplace rest k v

/-- Replace-or-append keyed by the first component (SQL
`INSERT OR REPLACE` on a primary key). -/
def assocUpsert {α : Type} (l : List (List Char × α)) (k : List Char)
    (v : α) : List (List Char × α) :=
  match assocLookup l k with
  | some _ => assocReplace l k v
  | none => l ++ [(k, v)]

/-- Apply `f` to the row list of the named table. -/
def tables_update (ts : List (List Char × List Row)) (name : List Char)
    (f : List Row → List Row) : List (List Char × List Row) :=
  ts.map fun nt => if nt.1 = name then (nt.1, f nt.2) else nt

/-- `DatabaseService.truncate_all_tables` / `truncate_table`
(`database_service.py`, lines 223-248): company-scoped delete when a
company is given (every replicated table carries `_company`), full delete
otherwise. -/
def truncate_all_tables (db : DB) (company : List Char) : DB :=
  { db with tables := db.tables.map fun nt =>
      (nt.1, if company ≠ [] then nt.2.filter (fun r => r.company ≠ company)
             else []) }

/-- `DatabaseService.bulk_insert` (`database_service.py`, lines 250-293),
success path: stamp `_company` when a company is given and append the
rows.  (Batching commits whole batches; the failure knob of the
environment models the raising path, before any row of the call is
kept.) -/
def bulk_insert (db : DB) (table : List Char) (rows : List Row)
    (company : List Char) : DB :=
  let stamped := rows.map fun r =>
    if company ≠ [] then { r with company := company } else r
  { db with tables := tables_update db.tables table (fun ex => ex ++ stamped) }

/-- `DatabaseService.update_company_config`
(`database_service.py`, lines 772-817): update the existing row
(`COALESCE(NULLIF(?, ''), company_guid)` keeps the old guid on empty
input, `CASE WHEN ? > 0` keeps the old alterid on non-positive input,
the two `last_alter_id_*` columns are overwritten unconditionally,
`sync_count` increments) or insert a fresh row with `sync_count = 1`. -/
def update_company_config (db : DB) (name guid : List Char)
    (alterid m t : Int) (stype : List Char) : DB :=
  match assocLookup db.company_config name with
  | some old =>
    { db with company_config := (assocReplace db.company_config name
        { company_guid := if guid ≠ [] then guid else old.company_guid
          company_alterid := if 0 < alterid then alterid
                             else old.company_alterid
          last_alter_id_master := m
          last_alter_id_transaction := t
          last_sync_type := stype
          sync_count := old.sync_count + 1 }) }
  | none =>
    { db with company_config := (db.company_config ++ [(name,
        { company_guid := guid
          company_alterid := alterid
          last_alter_id_master := m
          last_alter_id_transaction := t
          last_sync_type := stype
          sync_count := 1 })]) }

/-- `SyncService._save_sync_history` (lines 1041-1055): insert a row,
return its id (1-based position). -/
def save_sync_history (db : DB) (stype status : List Char) : DB × Nat :=
  ({ db with sync_history := db.sync_history ++ [(stype, status)] },
   db.sync_history.length + 1)

/-- `SyncService._update_sync_history` (lines 1057-1076): update the
status of the identified row; a falsy id is a no-op. -/
def update_sync_history (db : DB) (hid : Nat) (status : List Char) : DB :=
  if hid = 0 then db
  else { db with sync_history := (db.sync_history.mapIdx
          (fun i e => if i + 1 = hid then (e.1, status) else e)) }

/-- Values of the dict `get_company_info` returns. -/
inductive InfoVal
  | s (v : List Char)
  | i (v : Int)
deriving DecidableEq, Repr

/-- The dict literal `_parse_company_info` returns
(`tally_service.py`, lines 315-321).  Note its alterid key is
`alterid`. -/
def company_info_dict (ci : CompanyInfo) : List (List Char × InfoVal) :=
  [("company_name".toList, InfoVal.s ci.company_name),
   ("books_from".toList, InfoVal.s ci.books_from),
   ("last_voucher_date".toList, InfoVal.s ci.last_voucher_date),
   ("guid".toList, InfoVal.s ci.guid),
   ("alterid".toList, InfoVal.i ci.alterid)]

/-- `int(d.get(key, 0) or 0)` on an info dict: a missing key or the
default yields 0; an int value passes through; a string value parses or
(the `ValueError` being caught by every caller) falls back to 0. -/
def dict_get_int (d : List (List Char × InfoVal)) (k : List Char) : Int :=
  match assocLookup d k with
  | some (InfoVal.i n) => n
  | some (InfoVal.s v) => (pyInt? v).getD 0
  | none => 0

/-- `SyncService._get_current_alterid_from_tally`
(`sync_service.py`, lines 376-387): reads `company_info.get("alter_id",
0)` — the dict's key is `alterid`, so the lookup misses.  Both the
`master` and the `transaction` variant run this same line (lines 381 and
384).  A transport failure or error dict also yields 0.  Its only caller
is the dead region of `incremental_sync` (line 242 raises first), so
this method never actually runs in this source. -/
def get_current_alterid_from_tally (env : GatewayEnv) : Int :=
  match env.company_info with
  | some ci => dict_get_int (company_info_dict ci) ("alter_id".toList)
  | none => 0

/-- The `int(value)` fallback read of the key-value `config` table used by
`_get_last_alterid` / `_get_last_alterid_transaction` (lines 346-351 and
366-371); a missing row, empty value or `ValueError` yields 0. -/
def kv_fallback (db : DB) (key : List Char) : Int :=
  match assocLookup db.config_kv key with
  | some v =>
    match pyInt? v with
    | some n => n
    | none => 0
  | none => 0

/-- `SyncService._get_last_alterid` (lines 336-354). -/
def get_last_alterid_master (db : DB) (svc : Svc) : Int :=
  if svc.current_company ≠ [] then
    match assocLookup db.company_config svc.current_company with
    | some row => row.last_alter_id_master
    | none => kv_fallback db ("Last AlterID Master".toList)
  else kv_fallback db ("Last AlterID Master".toList)

/-- `SyncService._get_last_alterid_transaction` (lines 356-374). -/
def get_last_alterid_transaction (db : DB) (svc : Svc) : Int :=
  if svc.current_company ≠ [] then
    match assocLookup db.company_config svc.current_company with
    | some row => row.last_alter_id_transaction
    | none => kv_fallback db ("Last AlterID Transaction".toList)
  else kv_fallback db ("Last AlterID Transaction".toList)

/-- Integer to decimal string (`str(n)` on the stored alter-ids). -/
def intToChars (n : Int) : List Char := (toString n).toList

/-- `SyncService._update_config_table` (`sync_service.py`, lines
1137-1208): resolve company name/guid/alterid from the company-info
report, fetch the alter-id pair, upsert `company_config`, and rewrite
the key-value `config` table.  The `sync_type` quirk of line 1185 is kept:
`full` only when the service is not currently `running`.  Timestamp and
period values are abstracted as empty strings.  All errors are swallowed
in the source; `get_last_alter_ids` never raises (C9). -/
def update_config_table (env : GatewayEnv) (db : DB) (svc : Svc) :
    DB × List SyncEffect :=
  let resolved :=
    match env.company_info with
    | some ci =>
      if svc.current_company = [] then
        ((if ci.company_name ≠ [] then ci.company_name
          else "Unknown".toList),
         ci.guid, dict_get_int (company_info_dict ci) ("alterid".toList))
      else (svc.current_company, ci.guid,
        dict_get_int (company_info_dict ci) ("alterid".toList))
    | none =>
      ((if svc.current_company ≠ [] then svc.current_company
        else "Unknown".toList), [], 0)
  let altm := env.alter_ids.1
  let altt := env.alter_ids.2
  let stype := if svc.status ≠ statusRunning then "full".toList
               else "incremental".toList
  let db1 := update_company_config db resolved.1 resolved.2.1 resolved.2.2
    altm altt stype
  let db2 := { db1 with config_kv := [
      ("Update Timestamp".toList, []),
      ("Company Name".toList, resolved.1),
      ("Period From".toList, []),
      ("Period To".toList, []),
      ("Sync Mode".toList, []),
      ("Total Rows".toList, Nat.toDigits 10 svc.rows_processed),
      ("Last AlterID Master".toList, intToChars altm),
      ("Last AlterID Transaction".toList, intToChars altt)] }
  (db2, [SyncEffect.configUpdate resolved.1 altm altt])

/-- `SyncService._sync_tables_sequential` (lines 624-643) and the
sequential transaction loop (lines 707-724): per-table extract and
insert, each table's failure caught and skipped. -/
def seq_phase (env : GatewayEnv) : List TableCfg → Nat → Nat → DB → Svc →
    DB × Svc × List SyncEffect
  | [], _, _, db, svc => (db, svc, [])
  | t :: rest, idx, total, db, svc =>
    if svc.cancel_requested then (db, svc, [])
    else
      let svc1 := { svc with current_table := t.name,
                             progress := ((idx * 100) / total : Nat) }
      let rows := env.table_rows t.name
      if rows ≠ [] then
        if env.bulk_insert_fails t.name then
          seq_phase env rest (idx + 1) total db svc1
        else
          let db1 := bulk_insert db t.name rows svc1.current_company
          let svc2 := { svc1 with
            rows_processed := svc1.rows_processed + rows.length }
          let rec2 := seq_phase env rest (idx + 1) total db1 svc2
          (rec2.1, rec2.2.1, SyncEffect.insertRows t.name rows.length ::
            rec2.2.2)
      else seq_phase env rest (idx + 1) total db svc1

/-- `SyncService._sync_tables_parallel` (lines 645-691): fetches never
raise (`_extract_table_data` swallows), inserts run sequentially and are
NOT wrapped per table — a `bulk_insert` failure raises out of the phase
(carried as the fourth component). -/
def par_phase (env : GatewayEnv) : List TableCfg → Nat → Nat → DB → Svc →
    DB × Svc × List SyncEffect × Option (List Char)
  | [], _, _, db, svc => (db, svc, [], none)
  | t :: rest, idx, total, db, svc =>
    if svc.cancel_requested then (db, svc, [], none)
    else
      let svc1 := { svc with current_table := t.name,
                             progress := ((idx * 100) / total : Nat) }
      let rows := env.table_rows t.name
      if rows ≠ [] then
        if env.bulk_insert_fails t.name then
          (db, svc1, [], some ("bulk insert failed".toList))
        else
          let db1 := bulk_insert db t.name rows svc1.current_company
          let svc2 := { svc1 with
            rows_processed := svc1.rows_processed + rows.length }
          let rec2 := par_phase env rest (idx + 1) total db1 svc2
          (rec2.1, rec2.2.1, SyncEffect.insertRows t.name rows.length ::
            rec2.2.2.1, rec2.2.2.2)
      else par_phase env rest (idx + 1) total db svc1

/-- One Primary table of `SyncService._process_diff_for_primary_tables`
(lines 399-494): stage the Gateway's `(guid, alterid)` pairs (`INSERT OR
REPLACE` keyed by guid), stage deletions — company-scoped rows whose guid
is absent from the staging or whose alterid differs — then delete them
(company-scoped) and run the cascade deletes (not company-scoped, as in
the source, lines 487-490).  The per-row DELETE audit events the source
emits here are the `AuditService` model's concern. -/
def process_diff_one (env : GatewayEnv) (t : TableCfg) (db : DB)
    (svc : Svc) : DB × List SyncEffect :=
  let diffMap := (env.diff_rows t.name).foldl
    (fun m r => assocUpsert m r.guid r.alterid) []
  let tableRows := (assocLookup db.tables t.name).getD []
  let absent := (tableRows.filter (fun r =>
    r.company = svc.current_company &&
      (assocLookup diffMap r.guid).isNone)).map Row.guid
  let changed := (tableRows.filter (fun r =>
    r.company = svc.current_company &&
      (match assocLookup diffMap r.guid with
       | some a => decide (a ≠ r.alterid)
       | none => false))).map Row.guid
  let delete_guids := (absent ++ changed).dedup
  if 0 < delete_guids.length then
    let db1 := { db with tables := (tables_update db.tables t.name
      (fun rs => rs.filter (fun r =>
        ¬(r.guid ∈ delete_guids ∧ r.company = svc.current_company)))) }
    let db2 := { db1 with tables := (t.cascades.foldl
      (fun ts ct => tables_update ts ct
        (fun rs => rs.filter (fun r => r.fk ∉ delete_guids)))
      db1.tables) }
    (db2, SyncEffect.diffPhase t.name ::
      SyncEffect.deleteRows t.name delete_guids.length ::
      t.cascades.map SyncEffect.cascadeDeleteRows)
  else (db, [SyncEffect.diffPhase t.name])

/-- `SyncService._process_diff_for_primary_tables` (lines 389-494) over
the Primary tables of one kind, in declaration order. -/
def process_diff (env : GatewayEnv) (tables : List TableCfg) (db : DB)
    (svc : Svc) : DB × List SyncEffect :=
  (tables.filter (fun t => t.nature = ("Primary".toList))).foldl
    (fun acc t =>
      let st := process_diff_one env t acc.1 svc
      (st.1, acc.2 ++ st.2))
    (db, [])

/-- Upsert one decoded row: SQLite `INSERT OR REPLACE` on the table's
guid primary key (`SyncService._upsert_rows`, lines 591-608). -/
def upsert_row (rs : List Row) (r : Row) : List Row :=
  if rs.any (fun x => x.guid = r.guid) then
    rs.map (fun x => if x.guid = r.guid then r else x)
  else rs ++ [r]

/-- `SyncService._import_changed_records` (lines 496-566): per table (all
tables of the kind, not only Primary), extract with the alter-id filter
(the environment's `import_rows` abstracts the filtered report), stamp
`_company`, and upsert; per-table failures are caught.  The per-row
INSERT/UPDATE audit events are the `AuditService` model's concern. -/
def import_changed (env : GatewayEnv) : List TableCfg → Nat → Nat → DB →
    Svc → DB × Svc × List SyncEffect
  | [], _, _, db, svc => (db, svc, [])
  | t :: rest, idx, total, db, svc =>
    if svc.cancel_requested then (db, svc, [])
    else
      let svc1 := { svc with current_table := t.name,
                             progress := ((idx * 50) / total : Nat) + 50 }
      let rows := env.import_rows t.name
      if rows ≠ [] then
        let stamped := rows.map (fun r =>
          { r with company := svc1.current_company })
        let db1 := { db with tables := (tables_update db.tables t.name
          (fun rs => stamped.foldl upsert_row rs)) }
        let svc2 := { svc1 with
          rows_processed := svc1.rows_processed + stamped.length }
        let rec2 := import_changed env rest (idx + 1) total db1 svc2
        (rec2.1, rec2.2.1, SyncEffect.importPhase t.name ::
          SyncEffect.upsertRows t.name stamped.length :: rec2.2.2)
      else
        let rec2 := import_changed env rest (idx + 1) total db svc1
        (rec2.1, rec2.2.1, SyncEffect.importPhase t.name :: rec2.2.2)

/-- The body of `SyncService.full_sync` after a passed (or absent) safety
probe (lines 162-216): company-scoped truncate, pre-sync config update,
master phase, transaction phase, completion bookkeeping.  A raising
parallel-phase insert reaches the outer `except` (lines 208-214):
session `failed`, history updated, partial inserts kept. -/
def full_sync_main (env : GatewayEnv) (db : DB) (hid : Nat) (svc : Svc)
    (parallel : Bool) : SyncResult × DB × Svc × List SyncEffect :=
  let tr0 := db.tables.map
    (fun nt => SyncEffect.truncateTable nt.1 svc.current_company)
  let db1 := truncate_all_tables db svc.current_company
  let cfg1 := update_config_table env db1 svc
  let total := env.master_tables.length + env.transaction_tables.length
  if parallel then
    match par_phase env env.master_tables 0 total cfg1.1 svc with
    | (db3, svc3, tr2, some err) =>
      let svcF := { svc3 with status := statusFailed,
                              error_message := some err }
      (get_status svcF, update_sync_history db3 hid statusFailed, svcF,
        tr0 ++ cfg1.2 ++ tr2)
    | (db3, svc3, tr2, none) =>
      if svc3.cancel_requested then
        let svcC := { svc3 with status := statusCancelled }
        (get_status svcC, update_sync_history db3 hid statusCancelled,
          svcC, tr0 ++ cfg1.2 ++ tr2)
      else
        match par_phase env env.transaction_tables
            env.master_tables.length total db3 svc3 with
        | (db4, svc4, tr3, some err) =>
          let svcF := { svc4 with status := statusFailed,
                                  error_message := some err }
          (get_status svcF, update_sync_history db4 hid statusFailed,
            svcF, tr0 ++ cfg1.2 ++ tr2 ++ tr3)
        | (db4, svc4, tr3, none) =>
          if svc4.cancel_requested then
            let svcC := { svc4 with status := statusCancelled }
            (get_status svcC, update_sync_history db4 hid statusCancelled,
              svcC, tr0 ++ cfg1.2 ++ tr2 ++ tr3)
          else
            let svc5 := { svc4 with status := statusCompleted,
                                    progress := 100 }
            let cfg2 := update_config_table env db4 svc5
            (get_status svc5, update_sync_history cfg2.1 hid
              statusCompleted, svc5,
              tr0 ++ cfg1.2 ++ tr2 ++ tr3 ++ cfg2.2)
  else
    match seq_phase env env.master_tables 0 total cfg1.1 svc with
    | (db3, svc3, tr2) =>
      if svc3.cancel_requested then
        let svcC := { svc3 with status := statusCancelled }
        (get_status svcC, update_sync_history db3 hid statusCancelled,
          svcC, tr0 ++ cfg1.2 ++ tr2)
      else
        match seq_phase env env.transaction_tables
            env.master_tables.length total db3 svc3 with
        | (db4, svc4, tr3) =>
          if svc4.cancel_requested then
            let svcC := { svc4 with status := statusCancelled }
            (get_status svcC, update_sync_history db4 hid statusCancelled,
              svcC, tr0 ++ cfg1.2 ++ tr2 ++ tr3)
          else
            let svc5 := { svc4 with status := statusCompleted,
                                    progress := 100 }
            let cfg2 := update_config_table env db4 svc5
            (get_status svc5, update_sync_history cfg2.1 hid
              statusCompleted, svc5,
              tr0 ++ cfg1.2 ++ tr2 ++ tr3 ++ cfg2.2)

/-- `SyncService.full_sync` (`sync_service.py`, lines 109-216): busy
check, status reset, connect, history insert, safety probe (first master
TableSpec, lines 147-160), then the main body. -/
def full_sync (env : GatewayEnv) (db : DB) (svc : Svc)
    (company : List Char) (parallel : Bool) :
    SyncResult × DB × Svc × List SyncEffect :=
  if svc.status = statusRunning then (SyncResult.busyError, db, svc, [])
  else
    let svc1 := { reset_status svc with
      status := statusRunning
      current_company := (if company ≠ [] then company
                          else env.config_company) }
    if env.connect_fails then
      let svcF := { svc1 with
        status := statusFailed
        error_message := some ("connect failed".toList) }
      (get_status svcF, db, svcF, [])
    else
      let hist := save_sync_history db ("full".toList) statusRunning
      match env.master_tables with
      | t0 :: _ =>
        if env.table_rows t0.name = [] then
          let svcF := { svc1 with
            status := statusFailed
            error_message := some ("Tally returned 0 rows for ".toList
              ++ t0.name) }
          (get_status svcF, update_sync_history hist.1 hist.2 statusFailed,
            svcF, [])
        else full_sync_main env hist.1 hist.2 svc1 parallel
      | [] => full_sync_main env hist.1 hist.2 svc1 parallel

/-- The body of `SyncService.incremental_sync` after the pre-sync config
update (lines 271-322), taking the change flags
`current != last` for the master and transaction alter-ids: early exit
with zero work when neither changed, otherwise the diff phases, the
cancel check, the import phases, the cancel check, and completion
bookkeeping.  In this source these lines are dead code — line 242 raises
before them on every non-busy call (see `incremental_sync`); the model
of the body is kept for reference but is not called by
`incremental_sync`. -/
def incremental_sync_main (env : GatewayEnv) (db : DB) (hid : Nat)
    (svc : Svc) (master_changed transaction_changed : Bool) :
    SyncResult × DB × Svc × List SyncEffect :=
  if !master_changed && !transaction_changed then
    let svcC := { svc with status := statusCompleted, progress := 100 }
    (get_status svcC, update_sync_history db hid statusCompleted, svcC, [])
  else
    let d1 := if master_changed then
        process_diff env env.master_tables db svc
      else (db, [])
    let d2 := if transaction_changed then
        process_diff env env.transaction_tables d1.1 svc
      else (d1.1, [])
    if svc.cancel_requested then
      let svcC := { svc with status := statusCancelled }
      (get_status svcC, update_sync_history d2.1 hid statusCancelled,
        svcC, d1.2 ++ d2.2)
    else
      let i1 := if master_changed then
          import_changed env env.master_tables 0
            env.master_tables.length d2.1 svc
        else (d2.1, svc, [])
      let i2 := if transaction_changed then
          import_changed env env.transaction_tables 0
            env.transaction_tables.length i1.1 i1.2.1
        else (i1.1, i1.2.1, [])
      if i2.2.1.cancel_requested then
        let svcC := { i2.2.1 with status := statusCancelled }
        (get_status svcC, update_sync_history i2.1 hid statusCancelled,
          svcC, d1.2 ++ d2.2 ++ i1.2.2 ++ i2.2.2)
      else
        let svcC := { i2.2.1 with status := statusCompleted,
                                  progress := 100 }
        let cfg2 := update_config_table env i2.1 svcC
        (get_status svcC, update_sync_history cfg2.1 hid statusCompleted,
          svcC, d1.2 ++ d2.2 ++ i1.2.2 ++ i2.2.2 ++ cfg2.2)

/-- The `str(e)` of the `AttributeError` raised at `sync_service.py`
line 242: `xml_builder.reload_config(incremental=True)` is called there,
but `XMLBuilder` (`xml_builder.py`) defines no `reload_config` method and
nothing adds one to the module instance (the message's quotes around the
two names are elided). -/
def reload_config_error : List Char :=
  "XMLBuilder object has no attribute reload_config".toList

/-- `SyncService.incremental_sync` (`sync_service.py`, lines 218-334):
after the busy check (lines 221-222) and the status reset, the first
statement of the `try` block (line 242) calls
`xml_builder.reload_config(incremental=True)` — a method `XMLBuilder`
does not define — so every non-busy call raises `AttributeError` there,
before `connect`, the history insert, the alter-id reads and every
phase.  The `except` block (lines 324-330) sets status `failed` and the
error message; `sync_history_id` is still `None` (it is assigned only at
line 255), so the history update is skipped and the store is
untouched. -/
def incremental_sync (env : GatewayEnv) (db : DB) (svc : Svc)
    (company : List Char) : SyncResult × DB × Svc × List SyncEffect :=
  if svc.status = statusRunning then (SyncResult.busyError, db, svc, [])
  else
    let svc1 := { reset_status svc with
      status := statusRunning
      current_company := (if company ≠ [] then company
                          else env.config_company) }
    let svcF := { svc1 with
      status := statusFailed
      error_message := some reload_config_error }
    (get_status svcF, db, svcF, [])

theorem assocLookup_assocReplace_self {α : Type} {l : List (List Char × α)}
    {k : List Char} {w : α} (v : α) (h : assocLookup l k = some w) :
    assocLookup (assocReplace l k v) k = some v := by
  induction l with
  | nil => exact absurd h (by simp [assocLookup])
  | cons p rest ih =>
    rw [assocLookup] at h
    by_cases hk : p.1 = k
    · rw [assocReplace]
      cases p with
      | mk k0 v0 =>
        simp only at hk
        rw [if_pos hk, assocLookup, if_pos rfl]
    · cases p with
      | mk k0 v0 =>
        simp only at hk
        rw [if_neg hk] at h
        rw [assocReplace, if_neg hk, assocLookup, if_neg hk]
        exact ih h

theorem assocLookup_assocReplace_ne {α : Type} {l : List (List Char × α)}
    {k k2 : List Char} (v : α) (h : k ≠ k2) :
    assocLookup (assocReplace l k v) k2 = assocLookup l k2 := by
  induction l with
  | nil => rfl
  | cons p rest ih =>
    cases p with
    | mk k0 v0 =>
      rw [assocReplace]
      by_cases hk : k0 = k
      · rw [if_pos hk, assocLookup, if_neg h, assocLookup, if_neg]
        rw [hk]
        exact h
      · rw [if_neg hk, assocLookup, assocLookup]
        by_cases hk2 : k0 = k2
        · rw [if_pos hk2, if_pos hk2]
        · rw [if_neg hk2, if_neg hk2]
          exact ih

theorem assocLookup_append_single {α : Type} {l : List (List Char × α)}
    {kn k2 : List Char} (v : α) :
    assocLookup (l ++ [(kn, v)]) k2 =
      (match assocLookup l k2 with
       | some w => some w
       | none => if kn = k2 then some v else none) := by
  induction l with
  | nil => rfl
  | cons p rest ih =>
    cases p with
    | mk k0 v0 =>
      rw [List.cons_append, assocLookup, assocLookup]
      by_cases hk : k0 = k2
      · rw [if_pos hk, if_pos hk]
      · rw [if_neg hk, if_neg hk]
        exact ih

/-- `update_company_config` leaves every key's `company_config` entry
unchanged or overwrites it with the given `last_alter_id_*` pair. -/
theorem update_company_config_lookup (db : DB) (name guid : List Char)
    (alterid m t : Int) (stype : List Char) (k : List Char) :
    assocLookup (update_company_config db name guid alterid m t
        stype).company_config k = assocLookup db.company_config k ∨
    ∃ row, assocLookup (update_company_config db name guid alterid m t
        stype).company_config k = some row ∧
      row.last_alter_id_master = m ∧ row.last_alter_id_transaction = t := by
  rw [update_company_config]
  rcases hl : assocLookup db.company_config name with _ | old
  · simp only []
    by_cases hk : name = k
    · right
      refine ⟨({ company_guid := guid
                 company_alterid := alterid
                 last_alter_id_master := m
                 last_alter_id_transaction := t
                 last_sync_type := stype
                 sync_count := 1 }), ?_, rfl, rfl⟩
      rw [assocLookup_append_single, ← hk, hl, if_pos rfl]
    · left
      rw [assocLookup_append_single]
      rcases h2 : assocLookup db.company_config k with _ | w
      · rw [if_neg hk]
      · rfl
  · simp only []
    by_cases hk : name = k
    · right
      refine ⟨({ company_guid := (if guid ≠ [] then guid
                   else old.company_guid)
                 company_alterid := (if 0 < alterid then alterid
                   else old.company_alterid)
                 last_alter_id_master := m
                 last_alter_id_transaction := t
                 last_sync_type := stype
                 sync_count := old.sync_count + 1 }), ?_, rfl, rfl⟩
      rw [← hk]
      exact assocLookup_assocReplace_self _ hl
    · left
      exact assocLookup_assocReplace_ne _ hk

/-- `update_config_table` writes the Gateway's alter-id pair; every other
`company_config` entry is untouched. -/
theorem update_config_table_lookup (env : GatewayEnv) (db : DB) (svc : Svc)
    (k : List Char) :
    assocLookup (update_config_table env db svc).1.company_config k =
      assocLookup db.company_config k ∨
    ∃ row, assocLookup (update_config_table env db svc).1.company_config k =
        some row ∧
      row.last_alter_id_master = env.alter_ids.1 ∧
      row.last_alter_id_transaction = env.alter_ids.2 := by
  rw [update_config_table]
  exact update_company_config_lookup db _ _ _ _ _ _ k

theorem par_phase_company_config (env : GatewayEnv) (ts : List TableCfg)
    (idx total : Nat) (db : DB) (svc : Svc) :
    (par_phase env ts idx total db svc).1.company_config =
      db.company_config := by
  induction ts generalizing idx db svc with
  | nil => rfl
  | cons t rest ih =>
    rw [par_phase]
    by_cases hc : svc.cancel_requested
    · rw [if_pos hc]
    · rw [if_neg hc]
      simp only []
      by_cases hr : env.table_rows t.name ≠ []
      · rw [if_pos hr]
        by_cases hf : env.bulk_insert_fails t.name
        · rw [if_pos hf]
        · rw [if_neg hf]
          simp only []
          rw [ih]
          rfl
      · rw [if_neg hr]
        exact ih _ _ _

/-- C4: a call to `full_sync` or `incremental_sync` while another session
has status `running` returns the `{"error": …}` result immediately and
leaves the service state (status, progress, rows) and the whole store
unchanged, with no store effect — so at most one session is ever
non-terminal. -/
theorem C4_busy_rejected :
    ∀ (env : GatewayEnv) (db : DB) (svc : Svc) (company : List Char)
      (parallel : Bool), svc.status = statusRunning →
      full_sync env db svc company parallel =
        (SyncResult.busyError, db, svc, []) ∧
      incremental_sync env db svc company =
        (SyncResult.busyError, db, svc, []) := by
  intro env db svc company parallel h
  constructor
  · rw [full_sync, if_pos h]
  · rw [incremental_sync, if_pos h]

/-- C1: a full sync whose safety probe (the first master TableSpec
request) decodes to zero rows ends with session status `failed`, the
result reports that status, every replicated table, the company-config
table and the key-value config table are untouched, and the effect trace
is empty — no company-scoped truncate and no data-phase write occurs. -/
theorem C1_empty_probe_aborts :
    ∀ (env : GatewayEnv) (db : DB) (svc : Svc) (company : List Char)
      (parallel : Bool) (t0 : TableCfg) (rest : List TableCfg),
      svc.status ≠ statusRunning →
      env.connect_fails = false →
      env.master_tables = t0 :: rest →
      env.table_rows t0.name = [] →
      (full_sync env db svc company parallel).2.2.1.status = statusFailed ∧
      (full_sync env db svc company parallel).1 =
        get_status (full_sync env db svc company parallel).2.2.1 ∧
      (full_sync env db svc company parallel).2.1.tables = db.tables ∧
      (full_sync env db svc company parallel).2.1.company_config =
        db.company_config ∧
      (full_sync env db svc company parallel).2.1.config_kv = db.config_kv ∧
      (full_sync env db svc company parallel).2.2.2 = [] := by
  intro env db svc company parallel t0 rest hrun hconn hmt hrows
  rw [full_sync, if_neg hrun, hconn]
  simp only [Bool.false_eq_true, if_false, hmt]
  rw [if_pos hrows]
  refine ⟨rfl, rfl, ?_, ?_, ?_, rfl⟩ <;>
    simp [save_sync_history, update_sync_history]

/-- A fresh idle service state. -/
def idleSvc : Svc :=
  { status := statusIdle
    progress := 0
    current_table := []
    rows_processed := 0
    error_message := none
    cancel_requested := false
    current_company := [] }

/-- A store with one replicated table holding one ACME row and an ACME
company-config entry whose alter-ids are `(5, 5)`. -/
def acmeDb : DB :=
  { tables := [("mst_group".toList,
      [({ guid := "g1".toList
          alterid := "5".toList
          company := "ACME".toList
          fk := []
          payload := 0 })])]
    company_config := [("ACME".toList,
      ({ company_guid := []
         company_alterid := 0
         last_alter_id_master := 5
         last_alter_id_transaction := 5
         last_sync_type := "full".toList
         sync_count := 1 }))]
    config_kv := []
    sync_history := [] }

/-- An environment whose Gateway probe returns zero rows. -/
def c1Env : GatewayEnv :=
  { master_tables := [({ name := "mst_group".toList
                         nature := "Primary".toList
                         cascades := [] })]
    transaction_tables := []
    config_company := []
    table_rows := fun _ => []
    diff_rows := fun _ => []
    import_rows := fun _ => []
    alter_ids := (7, 8)
    company_info := some ({ company_name := "ACME".toList
                            books_from := []
                            last_voucher_date := []
                            guid := "GUID1".toList
                            alterid := 7 })
    connect_fails := false
    bulk_insert_fails := fun _ => false }

/-- Witness for C1: the probe-fails environment applied at the ACME
store. -/
theorem C1_empty_probe_aborts_witness :
    (full_sync c1Env acmeDb idleSvc ("ACME".toList) false).2.2.1.status =
      statusFailed ∧
    (full_sync c1Env acmeDb idleSvc ("ACME".toList) false).1 =
      get_status (full_sync c1Env acmeDb idleSvc ("ACME".toList)
        false).2.2.1 ∧
    (full_sync c1Env acmeDb idleSvc ("ACME".toList) false).2.1.tables =
      acmeDb.tables ∧
    (full_sync c1Env acmeDb idleSvc ("ACME".toList)
      false).2.1.company_config = acmeDb.company_config ∧
    (full_sync c1Env acmeDb idleSvc ("ACME".toList) false).2.1.config_kv =
      acmeDb.config_kv ∧
    (full_sync c1Env acmeDb idleSvc ("ACME".toList) false).2.2.2 = [] :=
  C1_empty_probe_aborts c1Env acmeDb idleSvc ("ACME".toList) false
    ({ name := "mst_group".toList
       nature := "Primary".toList
       cascades := [] }) []
    (by decide) rfl rfl rfl

/-- Witness for C4: both entry points rejected while a session runs. -/
theorem C4_busy_rejected_witness :
    full_sync c1Env acmeDb ({ idleSvc with status := statusRunning })
        ("ACME".toList) false =
      (SyncResult.busyError, acmeDb,
        ({ idleSvc with status := statusRunning }), []) ∧
    incremental_sync c1Env acmeDb ({ idleSvc with status := statusRunning })
        ("ACME".toList) =
      (SyncResult.busyError, acmeDb,
        ({ idleSvc with status := statusRunning }), []) :=
  C4_busy_rejected c1Env acmeDb ({ idleSvc with status := statusRunning })
    ("ACME".toList) false rfl

theorem update_sync_history_company_config (db : DB) (hid : Nat)
    (status : List Char) :
    (update_sync_history db hid status).company_config =
      db.company_config := by
  rw [update_sync_history]
  split <;> rfl

/-- After the safety probe, a `failed` outcome of the full-sync body
leaves each `company_config` entry either untouched or overwritten with
the alter-id pair the Gateway reported during the pre-sync config
update. -/
theorem full_sync_main_failed_lookup (env : GatewayEnv) (db : DB)
    (hid : Nat) (svc : Svc) (parallel : Bool) (k : List Char)
    (hfail : (full_sync_main env db hid svc parallel).2.2.1.status =
      statusFailed) :
    assocLookup
        (full_sync_main env db hid svc parallel).2.1.company_config k =
      assocLookup db.company_config k ∨
    ∃ row, assocLookup
        (full_sync_main env db hid svc parallel).2.1.company_config k =
          some row ∧
      row.last_alter_id_master = env.alter_ids.1 ∧
      row.last_alter_id_transaction = env.alter_ids.2 := by
  rw [full_sync_main] at hfail ⊢
  simp only [] at hfail ⊢
  cases parallel with
  | false =>
    rw [if_neg (by simp)] at hfail ⊢
    rcases hs1 : seq_phase env env.master_tables 0
        (env.master_tables.length + env.transaction_tables.length)
        (update_config_table env (truncate_all_tables db
          svc.current_company) svc).1 svc with ⟨db3, svc3, tr2⟩
    rw [hs1] at hfail
    simp only [] at hfail ⊢
    by_cases hc1 : svc3.cancel_requested
    · rw [if_pos hc1] at hfail
      simp only [] at hfail
      exact absurd hfail (by decide)
    · rw [if_neg hc1] at hfail ⊢
      rcases hs2 : seq_phase env env.transaction_tables
          env.master_tables.length
          (env.master_tables.length + env.transaction_tables.length)
          db3 svc3 with ⟨db4, svc4, tr3⟩
      rw [hs2] at hfail
      simp only [] at hfail
      by_cases hc2 : svc4.cancel_requested
      · rw [if_pos hc2] at hfail
        simp only [] at hfail
        exact absurd hfail (by decide)
      · rw [if_neg hc2] at hfail
        simp only [] at hfail
        exact absurd hfail (by decide)
  | true =>
    rw [if_pos rfl] at hfail ⊢
    rcases hp1 : par_phase env env.master_tables 0
        (env.master_tables.length + env.transaction_tables.length)
        (update_config_table env (truncate_all_tables db
          svc.current_company) svc).1 svc with ⟨db3, svc3, tr2, err⟩
    have hcc3 : db3.company_config = (update_config_table env
        (truncate_all_tables db svc.current_company) svc).1.company_config
      := by
      have := par_phase_company_config env env.master_tables 0
        (env.master_tables.length + env.transaction_tables.length)
        (update_config_table env (truncate_all_tables db
          svc.current_company) svc).1 svc
      rw [hp1] at this
      exact this
    rw [hp1] at hfail
    try simp only [] at hfail ⊢
    cases err with
    | some e =>
      try simp only [] at hfail ⊢
      rw [update_sync_history_company_config, hcc3]
      rcases update_config_table_lookup env
          (truncate_all_tables db svc.current_company) svc k with
        h | ⟨row, hr, hm, ht⟩
      · left
        rw [h]
        rfl
      · exact Or.inr ⟨row, hr, hm, ht⟩
    | none =>
      try simp only [] at hfail ⊢
      by_cases hc1 : svc3.cancel_requested
      · rw [if_pos hc1] at hfail
        simp only [] at hfail
        exact absurd hfail (by decide)
      · rw [if_neg hc1] at hfail ⊢
        rcases hp2 : par_phase env env.transaction_tables
            env.master_tables.length
            (env.master_tables.length + env.transaction_tables.length)
            db3 svc3 with ⟨db4, svc4, tr3, err2⟩
        have hcc4 : db4.company_config = db3.company_config := by
          have := par_phase_company_config env env.transaction_tables
            env.master_tables.length
            (env.master_tables.length + env.transaction_tables.length)
            db3 svc3
          rw [hp2] at this
          exact this
        rw [hp2] at hfail
        try simp only [] at hfail ⊢
        cases err2 with
        | some e =>
          try simp only [] at hfail ⊢
          rw [update_sync_history_company_config, hcc4, hcc3]
          rcases update_config_table_lookup env
              (truncate_all_tables db svc.current_company) svc k with
            h | ⟨row, hr, hm, ht⟩
          · left
            rw [h]
            rfl
          · exact Or.inr ⟨row, hr, hm, ht⟩
        | none =>
          try simp only [] at hfail
          by_cases hc2 : svc4.cancel_requested
          · rw [if_pos hc2] at hfail
            simp only [] at hfail
            exact absurd hfail (by decide)
          · rw [if_neg hc2] at hfail
            simp only [] at hfail
            exact absurd hfail (by decide)

/-- An environment whose probe succeeds, whose Gateway reports alter-ids
`(7, 8)`, and whose bulk inserts raise (fatal in parallel mode). -/
def c2Env : GatewayEnv :=
  { master_tables := [({ name := "mst_group".toList
                         nature := "Primary".toList
                         cascades := [] })]
    transaction_tables := []
    config_company := []
    table_rows := fun _ => [({ guid := "g9".toList
                               alterid := "9".toList
                               company := []
                               fk := []
                               payload := 0 })]
    diff_rows := fun _ => []
    import_rows := fun _ => []
    alter_ids := (7, 8)
    company_info := some ({ company_name := "ACME".toList
                            books_from := []
                            last_voucher_date := []
                            guid := "GUID1".toList
                            alterid := 7 })
    connect_fails := false
    bulk_insert_fails := fun _ => true }

/-- C2 counterexample: the claim states that after a failed sync the
stored `last_alter_id_*` values are unchanged.  Here a parallel full sync
of `ACME` passes the safety probe, runs the pre-data-phase config update
(lines 166-169, "This ensures company info is saved even if sync fails"),
then fails in the master phase (a raising `bulk_insert`, uncaught in
`_sync_tables_parallel`): the session ends `failed`, yet the stored
alter-ids moved from `(5, 5)` to the Gateway's `(7, 8)`. -/
theorem C2_counterexample :
    (full_sync c2Env acmeDb idleSvc ("ACME".toList) true).2.2.1.status =
      statusFailed ∧
    assocLookup acmeDb.company_config ("ACME".toList) =
      some ({ company_guid := []
              company_alterid := 0
              last_alter_id_master := 5
              last_alter_id_transaction := 5
              last_sync_type := "full".toList
              sync_count := 1 }) ∧
    assocLookup (full_sync c2Env acmeDb idleSvc ("ACME".toList)
        true).2.1.company_config ("ACME".toList) =
      some ({ company_guid := "GUID1".toList
              company_alterid := 7
              last_alter_id_master := 7
              last_alter_id_transaction := 8
              last_sync_type := "incremental".toList
              sync_count := 2 }) := by
  decide

/-- The post-config-update body of the incremental sync never ends
`failed`: its leaves are the zero-work completion, a cancellation, or the
completion path (per-table failures are swallowed in the source). -/
theorem incremental_sync_main_not_failed (env : GatewayEnv) (db : DB)
    (hid : Nat) (svc : Svc) (mc tc : Bool) :
    (incremental_sync_main env db hid svc mc tc).2.2.1.status ≠
      statusFailed := by
  cases mc <;> cases tc <;>
    (rw [incremental_sync_main]; simp) <;>
    (try split) <;> (try split) <;>
    first
    | decide
    | (intro h; try simp only [] at h; exact absurd h (by decide))

set_option maxHeartbeats 2000000 in
/-- C2 (amended): after a sync (full or incremental) that ends `failed`,
each company's stored `last_alter_id_*` pair either equals its pre-sync
value (failure before the pre-data-phase config update: busy rejection,
connect failure, the safety probe, or — on every non-busy incremental
run — the `AttributeError` of the missing `reload_config` at line 242)
or equals the alter-id pair the Gateway reported during that sync's
pre-data-phase config update — the source deliberately persists company
info before the data phase (comment at `sync_service.py` lines
166-167). -/
theorem C2_amended :
    (∀ (env : GatewayEnv) (db : DB) (svc : Svc) (company : List Char)
      (parallel : Bool) (k : List Char),
      (full_sync env db svc company parallel).2.2.1.status = statusFailed →
      assocLookup (full_sync env db svc company
          parallel).2.1.company_config k =
        assocLookup db.company_config k ∨
      ∃ row, assocLookup (full_sync env db svc company
          parallel).2.1.company_config k = some row ∧
        row.last_alter_id_master = env.alter_ids.1 ∧
        row.last_alter_id_transaction = env.alter_ids.2) ∧
    (∀ (env : GatewayEnv) (db : DB) (svc : Svc) (company k : List Char),
      (incremental_sync env db svc company).2.2.1.status = statusFailed →
      assocLookup (incremental_sync env db svc
          company).2.1.company_config k =
        assocLookup db.company_config k ∨
      ∃ row, assocLookup (incremental_sync env db svc
          company).2.1.company_config k = some row ∧
        row.last_alter_id_master = env.alter_ids.1 ∧
        row.last_alter_id_transaction = env.alter_ids.2) := by
  constructor
  · intro env db svc company parallel k hfail
    rw [full_sync] at hfail ⊢
    by_cases hrun : svc.status = statusRunning
    · rw [if_pos hrun] at hfail ⊢
      exact Or.inl rfl
    · rw [if_neg hrun] at hfail ⊢
      simp only [] at hfail ⊢
      by_cases hcf : env.connect_fails
      · rw [if_pos hcf] at hfail ⊢
        exact Or.inl rfl
      · rw [if_neg hcf] at hfail ⊢
        rcases hmt : env.master_tables with _ | ⟨t0, rest⟩
        · try rw [hmt] at hfail
          try simp only [] at hfail
          have := full_sync_main_failed_lookup env
            (save_sync_history db ("full".toList) statusRunning).1
            (save_sync_history db ("full".toList) statusRunning).2
            ({ reset_status svc with
               status := statusRunning
               current_company := (if company ≠ [] then company
                                   else env.config_company) }) parallel k
            hfail
          exact this
        · try rw [hmt] at hfail
          try simp only [] at hfail ⊢
          by_cases hpr : env.table_rows t0.name = []
          · rw [if_pos hpr] at hfail ⊢
            left
            rw [update_sync_history_company_config]
            rfl
          · rw [if_neg hpr] at hfail ⊢
            exact full_sync_main_failed_lookup env _ _ _ parallel k hfail
  · intro env db svc company k hfail
    rw [incremental_sync] at hfail ⊢
    by_cases hrun : svc.status = statusRunning
    · rw [if_pos hrun] at hfail ⊢
      exact Or.inl rfl
    · rw [if_neg hrun] at hfail ⊢
      exact Or.inl rfl

/-- Witness for C2 (amended): the counterexample run (parallel full sync
failing in the master phase) instantiates the theorem; here the right
disjunct holds — the stored pair equals the Gateway's `(7, 8)`. -/
theorem C2_amended_witness :
    assocLookup (full_sync c2Env acmeDb idleSvc ("ACME".toList)
        true).2.1.company_config ("ACME".toList) =
      assocLookup acmeDb.company_config ("ACME".toList) ∨
    ∃ row, assocLookup (full_sync c2Env acmeDb idleSvc ("ACME".toList)
        true).2.1.company_config ("ACME".toList) = some row ∧
      row.last_alter_id_master = c2Env.alter_ids.1 ∧
      row.last_alter_id_transaction = c2Env.alter_ids.2 :=
  C2_amended.1 c2Env acmeDb idleSvc ("ACME".toList) true ("ACME".toList)
    (by decide)

/-- An environment in which the Gateway's current alter-ids equal the
stored `(5, 5)` pair of `acmeDb`: the company-info report carries
`alterid = 5` and the alter-id report returns `5,5`. -/
def c3Env : GatewayEnv :=
  { master_tables := [({ name := "mst_group".toList
                         nature := "Primary".toList
                         cascades := [] })]
    transaction_tables := []
    config_company := []
    table_rows := fun _ => []
    diff_rows := fun _ => []
    import_rows := fun _ => []
    alter_ids := (5, 5)
    company_info := some ({ company_name := "ACME".toList
                            books_from := []
                            last_voucher_date := []
                            guid := "GUID1".toList
                            alterid := 5 })
    connect_fails := false
    bulk_insert_fails := fun _ => false }

/-- C3: the claim states that an incremental sync in which the Gateway's
current master and transaction alter-ids both equal the stored values
ends `completed` with zero rows processed and no diff or import phase.
In this source no incremental sync can reach that path at all:
`sync_service.py` line 242 — the first statement of the `try` block —
calls `xml_builder.reload_config(incremental=True)`, but `XMLBuilder`
(`xml_builder.py`) defines no `reload_config` method, so every non-busy
call raises `AttributeError` at once and ends `failed` before the
alter-ids are even read.  First conjunct: every `incremental_sync` call
is either the busy rejection or the immediate failure carrying the
`AttributeError` message, with the store untouched and an empty trace.
The remaining conjuncts instantiate the claim's own scenario — stored
pair `(5, 5)` and the Gateway reporting 5 on both domains — where the
session ends `failed`, not `completed`, with no phase run and the store
unchanged. -/
theorem C3_incremental_reload_config_missing :
    (∀ (env : GatewayEnv) (db : DB) (svc : Svc) (company : List Char),
      incremental_sync env db svc company =
        (SyncResult.busyError, db, svc, []) ∨
      ((incremental_sync env db svc company).2.2.1.status = statusFailed ∧
       (incremental_sync env db svc company).2.2.1.error_message =
         some reload_config_error ∧
       (incremental_sync env db svc company).2.1 = db ∧
       (incremental_sync env db svc company).2.2.2 = [])) ∧
    c3Env.alter_ids = (5, 5) ∧
    c3Env.company_info = some ({ company_name := "ACME".toList
                                 books_from := []
                                 last_voucher_date := []
                                 guid := "GUID1".toList
                                 alterid := 5 }) ∧
    assocLookup acmeDb.company_config ("ACME".toList) =
      some ({ company_guid := []
              company_alterid := 0
              last_alter_id_master := 5
              last_alter_id_transaction := 5
              last_sync_type := "full".toList
              sync_count := 1 }) ∧
    (incremental_sync c3Env acmeDb idleSvc ("ACME".toList)).2.2.1.status =
      statusFailed ∧
    (incremental_sync c3Env acmeDb idleSvc ("ACME".toList)).2.2.1.status ≠
      statusCompleted ∧
    (incremental_sync c3Env acmeDb idleSvc ("ACME".toList)).2.2.2 = [] ∧
    (incremental_sync c3Env acmeDb idleSvc ("ACME".toList)).2.1 =
      acmeDb := by
  refine ⟨?_, by decide, by decide, by decide, by decide, by decide,
    by decide, rfl⟩
  intro env db svc company
  rw [incremental_sync]
  by_cases hrun : svc.status = statusRunning
  · rw [if_pos hrun]
    exact Or.inl rfl
  · rw [if_neg hrun]
    exact Or.inr ⟨rfl, rfl, rfl, rfl⟩

end TallySync
